import Mathlib

/-!
Verification of the encrypted-storage component of FinSight-AI
(`src/storage/secure_storage.py`, `src/storage/exceptions.py`).

The Python module is shallowly embedded: bytes are `List Nat` (each entry a
byte value `< 256`), Python `str` values are `List Nat` of Unicode code
points, `os.environ` is an explicit association list, the filesystem is an
explicit association list from paths to file contents, and exceptions are an
explicit `Except` error channel whose error type mirrors the exception
classes actually reachable from the module.

The cryptographic primitives supplied by the `cryptography` package
(PBKDF2-HMAC-SHA256 and AES-256-GCM) are modelled at their interface:
deterministic key derivation of the requested output length, and a
CTR-style keystream cipher with a 16-byte authentication tag appended to
the ciphertext, decryption succeeding exactly when the tag verifies.  The
internal mixing functions are simple executable stand-ins; no theorem below
depends on their cryptographic strength, only on the interface shape
(lengths, determinism, tag placement, all-or-nothing tag check).
-/

set_option maxRecDepth 10000


namespace FinSight

/-! ## Base64 (model of Python `base64.b64encode` / `base64.b64decode`) -/
/-- The character (ASCII code) at index `i` of the standard base64 alphabet. -/
def b64Char (i : Nat) : Nat :=
  if i < 26 then 65 + i
  else if i < 52 then 97 + (i - 26)
  else if i < 62 then 48 + (i - 52)
  else if i = 62 then 43
  else 47

/-- Inverse of `b64Char`: the alphabet index of an ASCII code, if any. -/
def b64Index (c : Nat) : Option Nat :=
  if 65 ≤ c ∧ c ≤ 90 then some (c - 65)
  else if 97 ≤ c ∧ c ≤ 122 then some (26 + (c - 97))
  else if 48 ≤ c ∧ c ≤ 57 then some (52 + (c - 48))
  else if c = 43 then some 62
  else if c = 47 then some 63
  else none

/-- Whether an ASCII code is in the base64 alphabet (excluding padding). -/
def b64IsAlpha (c : Nat) : Bool := (b64Index c).isSome

/-- Model of `base64.b64encode`: bytes to the ASCII codes of the base64
text, with `=` (61) padding. -/
def b64encode : List Nat → List Nat
  | [] => []
  | [a] => [b64Char (a / 4), b64Char (a % 4 * 16), 61, 61]
  | [a, b] => [b64Char (a / 4), b64Char (a % 4 * 16 + b / 16), b64Char (b % 16 * 4), 61]
  | a :: b :: c :: rest =>
      b64Char (a / 4) :: b64Char (a % 4 * 16 + b / 16) ::
      b64Char (b % 16 * 4 + c / 64) :: b64Char (c % 64) :: b64encode rest

/-- Decode base64 text four characters at a time.  Padding is accepted only
in the final group, mirroring `binascii` on well-formed input. -/
def b64decodeGroups : List Nat → Option (List Nat)
  | [] => some []
  | w :: x :: y :: z :: rest => do
      let dw ← b64Index w
      let dx ← b64Index x
      if z = 61 then
        if rest = [] then
          if y = 61 then
            some [dw * 4 + dx / 16]
          else do
            let dy ← b64Index y
            some [dw * 4 + dx / 16, dx % 16 * 16 + dy / 4]
        else none
      else do
        let dy ← b64Index y
        let dz ← b64Index z
        let tail ← b64decodeGroups rest
        some ((dw * 4 + dx / 16) :: (dx % 16 * 16 + dy / 4) :: (dy % 4 * 64 + dz) :: tail)
  | _ => none

/-- Model of `base64.b64decode` (default `validate=False`): characters
outside the alphabet and padding are discarded, then the remaining text is
decoded in groups of four; a leftover group is a padding error (`none`). -/
def b64decode (s : List Nat) : Option (List Nat) :=
  b64decodeGroups (s.filter (fun c => b64IsAlpha c || c == 61))

/-! ## UTF-8 (model of Python `str.encode("utf-8")` / `bytes.decode("utf-8")`)

A Python `str` is modelled as its list of Unicode code points. -/
/-- UTF-8 encoding of one code point (callers guard validity). -/
def utf8EncodeChar (c : Nat) : List Nat :=
  if c < 0x80 then [c]
  else if c < 0x800 then [0xC0 + c / 64, 0x80 + c % 64]
  else if c < 0x10000 then [0xE0 + c / 4096, 0x80 + c / 64 % 64, 0x80 + c % 64]
  else [0xF0 + c / 262144, 0x80 + c / 4096 % 64, 0x80 + c / 64 % 64, 0x80 + c % 64]

/-- Code points that UTF-8-encode: everything except surrogates, below the
Unicode limit.  `str.encode("utf-8")` raises `UnicodeEncodeError` exactly on
strings violating this. -/
def ValidStr (s : List Nat) : Prop :=
  ∀ c ∈ s, c < 0xD800 ∨ 0xE000 ≤ c ∧ c < 0x110000

instance (s : List Nat) : Decidable (ValidStr s) :=
  inferInstanceAs (Decidable (∀ c ∈ s, _))

/-- UTF-8 encoding of a code-point list. -/
def utf8Encode : List Nat → List Nat
  | [] => []
  | c :: cs => utf8EncodeChar c ++ utf8Encode cs

/-- Model of `str.encode("utf-8")`: `none` models `UnicodeEncodeError`. -/
def strEncodeUtf8 (s : List Nat) : Option (List Nat) :=
  if ValidStr s then some (utf8Encode s) else none

/-- Fuel-indexed strict UTF-8 decoder (Python `bytes.decode("utf-8")`):
rejects stray continuation bytes, overlong forms, surrogates and
out-of-range code points.  Fuel is an upper bound on the number of decoded
characters; `utf8Decode` supplies the list length. -/
def utf8DecodeAux : Nat → List Nat → Option (List Nat)
  | _, [] => some []
  | 0, _ :: _ => none
  | fuel + 1, b :: rest =>
    if b < 0x80 then (utf8DecodeAux fuel rest).map (b :: ·)
    else if b < 0xC2 then none
    else if b < 0xE0 then
      match rest with
      | b2 :: r =>
        if 0x80 ≤ b2 ∧ b2 < 0xC0 then
          (utf8DecodeAux fuel r).map (((b - 0xC0) * 64 + (b2 - 0x80)) :: ·)
        else none
      | _ => none
    else if b < 0xF0 then
      match rest with
      | b2 :: b3 :: r =>
        if 0x80 ≤ b2 ∧ b2 < 0xC0 ∧ 0x80 ≤ b3 ∧ b3 < 0xC0 ∧
            0x800 ≤ (b - 0xE0) * 4096 + (b2 - 0x80) * 64 + (b3 - 0x80) ∧
            ((b - 0xE0) * 4096 + (b2 - 0x80) * 64 + (b3 - 0x80) < 0xD800 ∨
              0xE000 ≤ (b - 0xE0) * 4096 + (b2 - 0x80) * 64 + (b3 - 0x80)) then
          (utf8DecodeAux fuel r).map
            (((b - 0xE0) * 4096 + (b2 - 0x80) * 64 + (b3 - 0x80)) :: ·)
        else none
      | _ => none
    else if b < 0xF5 then
      match rest with
      | b2 :: b3 :: b4 :: r =>
        if 0x80 ≤ b2 ∧ b2 < 0xC0 ∧ 0x80 ≤ b3 ∧ b3 < 0xC0 ∧ 0x80 ≤ b4 ∧ b4 < 0xC0 ∧
            0x10000 ≤ (b - 0xF0) * 262144 + (b2 - 0x80) * 4096 + (b3 - 0x80) * 64 + (b4 - 0x80) ∧
            (b - 0xF0) * 262144 + (b2 - 0x80) * 4096 + (b3 - 0x80) * 64 + (b4 - 0x80) < 0x110000 then
          (utf8DecodeAux fuel r).map
            (((b - 0xF0) * 262144 + (b2 - 0x80) * 4096 + (b3 - 0x80) * 64 + (b4 - 0x80)) :: ·)
        else none
      | _ => none
    else none

/-- Model of `bytes.decode("utf-8")`: `none` models `UnicodeDecodeError`. -/
def utf8Decode (bs : List Nat) : Option (List Nat) :=
  utf8DecodeAux bs.length bs

/-! ## JSON (model of Python `json.dumps` / `json.loads`)

Integer numerals are modelled exactly (`Json.int`, arbitrary precision on
both sides).  A numeral with a fraction or exponent — which Python's
scanner turns into an IEEE-754 double — is kept syntactically
(`Json.float` holds its sign, digit runs and exponent as parsed), and the
scanner constants `NaN`, `Infinity` and `-Infinity` become `Json.nan` and
`Json.infinity`.  The parser accepts exactly the numerals Python's
`NUMBER_RE` and constant checks accept, so `loads = none` coincides with
`json.JSONDecodeError`.  Two cautions on the syntactic representation:
model equality of `Json.float` is finer than Python float equality (it
distinguishes spellings of the same double, and `dumpsVal` reprints the
stored spelling where Python prints `repr` of the double), and model
equality of `Json.nan` is coarser (`float("nan") != float("nan")` in
Python).  Every round-trip theorem therefore carries its
`loads`-inverts-`dumpsVal` premise as an explicit hypothesis and, where a
conclusion asserts Python `==`, excludes `NaN` via `nanFree`. -/
/-- JSON values.  Strings are Python strings, i.e. code-point lists.
`float` stores a non-integer numeral syntactically: sign, integer-part and
fraction-part digit values, and an optional signed exponent. -/
inductive Json where
  | null
  | bool (b : Bool)
  | int (n : Int)
  | float (neg : Bool) (ip : List Nat) (fp : List Nat) (ex : Option (Bool × List Nat))
  | nan
  | infinity (neg : Bool)
  | str (s : List Nat)
  | arr (xs : List Json)
  | obj (kvs : List (List Nat × Json))

/-- Lowercase hexadecimal digit character. -/
def hexDigit (n : Nat) : Nat := if n < 10 then 48 + n else 87 + n

/-- A `\uXXXX` escape for a 16-bit value. -/
def uEscape (n : Nat) : List Nat :=
  [92, 117, hexDigit (n / 4096 % 16), hexDigit (n / 256 % 16),
   hexDigit (n / 16 % 16), hexDigit (n % 16)]

/-- Escaping of one string character, as `json.dumps` does with the default
`ensure_ascii=True`. -/
def escChar (c : Nat) : List Nat :=
  if c = 34 then [92, 34]
  else if c = 92 then [92, 92]
  else if c = 8 then [92, 98]
  else if c = 9 then [92, 116]
  else if c = 10 then [92, 110]
  else if c = 12 then [92, 102]
  else if c = 13 then [92, 114]
  else if c < 0x20 then uEscape c
  else if c < 0x7F then [c]
  else if c < 0x10000 then uEscape c
  else uEscape (0xD800 + (c - 0x10000) / 1024) ++ uEscape (0xDC00 + (c - 0x10000) % 1024)

/-- Escaped rendering of a string body. -/
def escBody : List Nat → List Nat
  | [] => []
  | c :: cs => escChar c ++ escBody cs

/-- Decimal digits (ASCII) of a natural number, with fuel bounding the
number of digits (`n + 1` always suffices). -/
def natDigitsAux : Nat → Nat → List Nat
  | 0, _ => []
  | fuel + 1, n => if n < 10 then [48 + n] else natDigitsAux fuel (n / 10) ++ [48 + n % 10]

/-- Decimal digits (ASCII) of a natural number. -/
def natDigits (n : Nat) : List Nat := natDigitsAux (n + 1) n

/-- Decimal rendering of an integer, as Python prints `int`. -/
def intDigits (n : Int) : List Nat :=
  if n < 0 then 45 :: natDigits n.natAbs else natDigits n.natAbs

/-- Rendering of a syntactic float: the stored sign, digit runs and
exponent are reprinted (the `% 10` only guards digit values the parser
never produces).  Python prints `repr` of the IEEE double instead, which
can respell the numeral (`1.50` prints as `1.5`); no theorem depends on
the spelling, since every serialize-then-parse fact is carried as an
explicit hypothesis. -/
def dumpsFloat (neg : Bool) (ip fp : List Nat) (ex : Option (Bool × List Nat)) : List Nat :=
  (if neg then [45] else []) ++ ip.map (fun d => 48 + d % 10) ++
  (if fp.isEmpty then [] else 46 :: fp.map (fun d => 48 + d % 10)) ++
  (match ex with
   | none => []
   | some (es, ds) => 101 :: ((if es then [45] else []) ++ ds.map (fun d => 48 + d % 10)))

mutual

/-- Model of `json.dumps` with the source's default arguments
(`ensure_ascii=True`, separators `", "` and `": "`), as a code-point list. -/
def dumpsVal : Json → List Nat
  | .null => [110, 117, 108, 108]
  | .bool true => [116, 114, 117, 101]
  | .bool false => [102, 97, 108, 115, 101]
  | .int n => intDigits n
  | .float neg ip fp ex => dumpsFloat neg ip fp ex
  | .nan => [78, 97, 78]
  | .infinity false => [73, 110, 102, 105, 110, 105, 116, 121]
  | .infinity true => [45, 73, 110, 102, 105, 110, 105, 116, 121]
  | .str s => 34 :: (escBody s ++ [34])
  | .arr xs => 91 :: (dumpsArr xs ++ [93])
  | .obj kvs => 123 :: (dumpsObj kvs ++ [125])
termination_by structural j => j

/-- Array elements joined by `", "`. -/
def dumpsArr : List Json → List Nat
  | [] => []
  | [x] => dumpsVal x
  | x :: y :: rest => dumpsVal x ++ (44 :: 32 :: dumpsArr (y :: rest))
termination_by structural l => l

/-- Object members `"key": value` joined by `", "`. -/
def dumpsObj : List (List Nat × Json) → List Nat
  | [] => []
  | [(k, v)] => 34 :: (escBody k ++ (34 :: 58 :: 32 :: dumpsVal v))
  | (k, v) :: p :: rest =>
      34 :: (escBody k ++ (34 :: 58 :: 32 :: (dumpsVal v ++ (44 :: 32 :: dumpsObj (p :: rest)))))
termination_by structural l => l

end

mutual

/-- No `NaN` occurs anywhere in the value.  Python's `float("nan")` is not
equal to itself, so a mapping containing `NaN` never compares `==` to any
value — including the result of its own round trip — and round-trip
conclusions asserting Python `==` must exclude it. -/
def nanFree : Json → Bool
  | .nan => false
  | .arr xs => nanFreeArr xs
  | .obj kvs => nanFreeObj kvs
  | _ => true
termination_by structural j => j

/-- All array elements are `NaN`-free. -/
def nanFreeArr : List Json → Bool
  | [] => true
  | x :: xs => nanFree x && nanFreeArr xs
termination_by structural l => l

/-- All object values are `NaN`-free. -/
def nanFreeObj : List (List Nat × Json) → Bool
  | [] => true
  | (_, v) :: kvs => nanFree v && nanFreeObj kvs
termination_by structural l => l

end

/-- JSON whitespace. -/
def isWs (c : Nat) : Bool := c == 32 || c == 9 || c == 10 || c == 13

/-- Drop leading JSON whitespace. -/
def skipWs : List Nat → List Nat
  | [] => []
  | c :: cs => if isWs c then skipWs cs else c :: cs

/-- Hexadecimal digit value of a character. -/
def parseHex (c : Nat) : Option Nat :=
  if 48 ≤ c ∧ c ≤ 57 then some (c - 48)
  else if 97 ≤ c ∧ c ≤ 102 then some (c - 87)
  else if 65 ≤ c ∧ c ≤ 70 then some (c - 55)
  else none

/-- Four hex digits after `\u`. -/
def parseU (input : List Nat) : Option (Nat × List Nat) :=
  match input with
  | h1 :: h2 :: h3 :: h4 :: rest => do
      let d1 ← parseHex h1
      let d2 ← parseHex h2
      let d3 ← parseHex h3
      let d4 ← parseHex h4
      some (d1 * 4096 + d2 * 256 + d3 * 16 + d4, rest)
  | _ => none

/-- Escape sequence after a backslash: `\" \\ \/ \b \f \n \r \t \uXXXX`,
with surrogate-pair combination as in Python's `py_scanstring`.  `recur`
continues parsing the remaining string body. -/
def parseEscape (recur : List Nat → Option (List Nat × List Nat)) :
    List Nat → Option (List Nat × List Nat)
  | [] => none
  | e :: cs2 =>
    if e = 34 ∨ e = 92 ∨ e = 47 then
      (recur cs2).map (fun p => (e :: p.1, p.2))
    else if e = 98 then (recur cs2).map (fun p => (8 :: p.1, p.2))
    else if e = 102 then (recur cs2).map (fun p => (12 :: p.1, p.2))
    else if e = 110 then (recur cs2).map (fun p => (10 :: p.1, p.2))
    else if e = 114 then (recur cs2).map (fun p => (13 :: p.1, p.2))
    else if e = 116 then (recur cs2).map (fun p => (9 :: p.1, p.2))
    else if e = 117 then
      match parseU cs2 with
      | none => none
      | some (n, cs3) =>
        if 0xD800 ≤ n ∧ n < 0xDC00 then
          match cs3 with
          | 92 :: 117 :: cs4 =>
            match parseU cs4 with
            | none => none
            | some (m, cs5) =>
              if 0xDC00 ≤ m ∧ m < 0xE000 then
                (recur cs5).map
                  (fun p => ((0x10000 + (n - 0xD800) * 1024 + (m - 0xDC00)) :: p.1, p.2))
              else (recur cs3).map (fun p => (n :: p.1, p.2))
          | _ => (recur cs3).map (fun p => (n :: p.1, p.2))
        else (recur cs3).map (fun p => (n :: p.1, p.2))
    else none

/-- String body after the opening quote, following Python's `py_scanstring`:
terminating quote, backslash escapes (see `parseEscape`), unescaped control
characters rejected. -/
def parseStringBody : Nat → List Nat → Option (List Nat × List Nat)
  | 0, _ => none
  | _, [] => none
  | fuel + 1, c :: cs =>
    if c = 34 then some ([], cs)
    else if c = 92 then parseEscape (parseStringBody fuel) cs
    else if c < 0x20 then none
    else (parseStringBody fuel cs).map (fun p => (c :: p.1, p.2))

/-- Digit run to a natural number. -/
def digitsToNat (ds : List Nat) : Nat := ds.foldl (fun acc c => acc * 10 + (c - 48)) 0

/-- Digit characters to digit values. -/
def digitVals (ds : List Nat) : List Nat := ds.map (fun c => c - 48)

/-- JSON number, following Python's scanner exactly: `NUMBER_RE` is
`-?(0|[1-9][0-9]*)(\.[0-9]+)?([eE][-+]?[0-9]+)?` — the fraction is
consumed only when the `.` is followed by a digit, the exponent only when
the `e`/`E` (and optional sign) is followed by a digit; a pure-integer
match yields a Python `int`, any fraction or exponent a float, kept
syntactically.  When `NUMBER_RE` does not match, the scanner's constant
checks accept `NaN`, `Infinity` and `-Infinity` (Python builds IEEE
`nan`/`inf` floats there). -/
def parseNumber (input : List Nat) : Option (Json × List Nat) :=
  match input with
  | 78 :: 97 :: 78 :: r => some (.nan, r)
  | 73 :: 110 :: 102 :: 105 :: 110 :: 105 :: 116 :: 121 :: r => some (.infinity false, r)
  | 45 :: 73 :: 110 :: 102 :: 105 :: 110 :: 105 :: 116 :: 121 :: r => some (.infinity true, r)
  | _ =>
    let signAndRest : Bool × List Nat :=
      match input with
      | 45 :: rest => (true, rest)
      | _ => (false, input)
    match signAndRest.2 with
    | [] => none
    | c :: cs =>
      if 48 ≤ c ∧ c ≤ 57 then
        let body : List Nat × List Nat :=
          if c = 48 then ([48], cs)
          else (c :: cs).span (fun d => 48 ≤ d && d ≤ 57)
        let frac : List Nat × List Nat :=
          match body.2 with
          | 46 :: r =>
            match r.span (fun d => 48 ≤ d && d ≤ 57) with
            | ([], _) => ([], body.2)
            | (ds, r2) => (ds, r2)
          | _ => ([], body.2)
        let expo : Option (Bool × List Nat) × List Nat :=
          match frac.2 with
          | e :: r =>
            if e = 101 ∨ e = 69 then
              match r with
              | 43 :: r2 =>
                match r2.span (fun d => 48 ≤ d && d ≤ 57) with
                | ([], _) => (none, frac.2)
                | (ds, r3) => (some (false, digitVals ds), r3)
              | 45 :: r2 =>
                match r2.span (fun d => 48 ≤ d && d ≤ 57) with
                | ([], _) => (none, frac.2)
                | (ds, r3) => (some (true, digitVals ds), r3)
              | _ =>
                match r.span (fun d => 48 ≤ d && d ≤ 57) with
                | ([], _) => (none, frac.2)
                | (ds, r3) => (some (false, digitVals ds), r3)
            else (none, frac.2)
          | _ => (none, frac.2)
        if frac.1 = [] ∧ expo.1 = none then
          let n : Int := Int.ofNat (digitsToNat body.1)
          some (.int (if signAndRest.1 then -n else n), body.2)
        else
          some (.float signAndRest.1 (digitVals body.1) (digitVals frac.1) expo.1, expo.2)
      else none

mutual

/-- Model of Python's JSON value scanner on code points. -/
def parseValue : Nat → List Nat → Option (Json × List Nat)
  | 0, _ => none
  | fuel + 1, input =>
    match input with
    | [] => none
    | c :: cs =>
      if c = 34 then (parseStringBody (cs.length + 1) cs).map (fun p => (.str p.1, p.2))
      else if c = 123 then
        match skipWs cs with
        | 125 :: r => some (.obj [], r)
        | cs1 => (parseMembers fuel cs1).map (fun p => (.obj p.1, p.2))
      else if c = 91 then
        match skipWs cs with
        | 93 :: r => some (.arr [], r)
        | cs1 => (parseElems fuel cs1).map (fun p => (.arr p.1, p.2))
      else if c = 116 then
        match cs with
        | 114 :: 117 :: 101 :: r => some (.bool true, r)
        | _ => none
      else if c = 102 then
        match cs with
        | 97 :: 108 :: 115 :: 101 :: r => some (.bool false, r)
        | _ => none
      else if c = 110 then
        match cs with
        | 117 :: 108 :: 108 :: r => some (.null, r)
        | _ => none
      else parseNumber (c :: cs)

/-- Object members from the first key (input starts at `"`). -/
def parseMembers : Nat → List Nat → Option (List (List Nat × Json) × List Nat)
  | 0, _ => none
  | fuel + 1, input =>
    match input with
    | 34 :: cs => do
      let p1 ← parseStringBody (cs.length + 1) cs
      match skipWs p1.2 with
      | 58 :: r3 => do
        let p2 ← parseValue fuel (skipWs r3)
        match skipWs p2.2 with
        | 44 :: r6 => do
          let p3 ← parseMembers fuel (skipWs r6)
          some ((p1.1, p2.1) :: p3.1, p3.2)
        | 125 :: r6 => some ([(p1.1, p2.1)], r6)
        | _ => none
      | _ => none
    | _ => none

/-- Array elements from the first element. -/
def parseElems : Nat → List Nat → Option (List Json × List Nat)
  | 0, _ => none
  | fuel + 1, input => do
      let p1 ← parseValue fuel input
      match skipWs p1.2 with
      | 44 :: r3 => do
        let p2 ← parseElems fuel (skipWs r3)
        some (p1.1 :: p2.1, p2.2)
      | 93 :: r3 => some ([p1.1], r3)
      | _ => none

end

/-- Model of `json.loads`: parse one value, then require only whitespace to
remain.  `none` models `json.JSONDecodeError`. -/
def loads (s : List Nat) : Option Json :=
  let t := skipWs s
  match parseValue (t.length + 1) t with
  | some (v, rest) => if skipWs rest = [] then some v else none
  | none => none

/-! ### Serialize/parse inversion on printable strings and flat string objects -/
/-- Printable ASCII needing no JSON escaping. -/
def NiceChar (c : Nat) : Prop := 0x20 ≤ c ∧ c ≤ 0x7E ∧ c ≠ 34 ∧ c ≠ 92

/-- Strings of printable, escape-free ASCII. -/
def NiceStr (s : List Nat) : Prop := ∀ c ∈ s, NiceChar c

instance (c : Nat) : Decidable (NiceChar c) := inferInstanceAs (Decidable (_ ∧ _))

instance (s : List Nat) : Decidable (NiceStr s) :=
  inferInstanceAs (Decidable (∀ c ∈ s, _))

/-! ## Cryptographic primitives (interface models)

`pbkdf2Sha256` models `PBKDF2HMAC(SHA256(), length, salt, iterations).derive`
and `aesgcmEncrypt`/`aesgcmDecrypt` model `AESGCM(key).encrypt`/`.decrypt`.
The mixing function is a simple executable stand-in for the real primitives;
the theorems rely only on the interface: determinism, output lengths,
CTR-style masking, and the appended 16-byte tag checked all-or-nothing on
decryption (`none` models `cryptography.exceptions.InvalidTag`). -/
/-- Deterministic byte-mixing fold (stand-in for the hash internals). -/
def mixBytes (seed : Nat) (bs : List Nat) : Nat :=
  bs.foldl (fun acc b => (acc * 131 + b + 1) % 4294967296) seed

/-- Model of PBKDF2-HMAC-SHA256: `length` bytes derived deterministically
from the master key, the salt and the iteration count. -/
def pbkdf2Sha256 (masterKey salt : List Nat) (iterations length : Nat) : List Nat :=
  (List.range length).map
    (fun i => mixBytes (mixBytes (mixBytes 0 masterKey) salt + iterations) [i] % 256)

/-- Model keystream byte `i` of the AES-256-CTR stream inside GCM. -/
def gcmKeystream (key nonce : List Nat) (i : Nat) : Nat :=
  mixBytes (mixBytes (mixBytes 1 key) nonce) [i] % 256

/-- CTR-style masking (XOR with the keystream) starting at position `i`. -/
def maskBytesAux (key nonce : List Nat) (i : Nat) : List Nat → List Nat
  | [] => []
  | b :: bs => (b ^^^ gcmKeystream key nonce i) :: maskBytesAux key nonce (i + 1) bs

/-- CTR-style masking (XOR with the keystream). -/
def maskBytes (key nonce pt : List Nat) : List Nat := maskBytesAux key nonce 0 pt

/-- Model of the 16-byte GCM authentication tag over key, nonce and data. -/
def gcmTag (key nonce bs : List Nat) : List Nat :=
  (List.range 16).map
    (fun i => mixBytes (mixBytes (mixBytes (mixBytes 2 key) nonce) bs) [i] % 256)

/-- Model of `AESGCM(key).encrypt(nonce, data, associated_data)`: the masked
data with the 16-byte tag appended (the source always passes
`associated_data=None`). -/
def aesgcmEncrypt (key nonce pt : List Nat) (associatedData : Option (List Nat)) :
    List Nat :=
  maskBytes key nonce pt ++
    gcmTag key nonce (associatedData.getD [] ++ maskBytes key nonce pt)

/-- Model of `AESGCM(key).decrypt(nonce, data, associated_data)`: split off
the final 16 bytes as the tag, verify, unmask.  `none` models `InvalidTag`. -/
def aesgcmDecrypt (key nonce ct : List Nat) (associatedData : Option (List Nat)) :
    Option (List Nat) :=
  if ct.length < 16 then none
  else
    if ct.drop (ct.length - 16) =
        gcmTag key nonce (associatedData.getD [] ++ ct.take (ct.length - 16)) then
      some (maskBytes key nonce (ct.take (ct.length - 16)))
    else none

/-! ## Exceptions

`src/storage/exceptions.py` defines the package's exception hierarchy.
`secure_storage.py`, however, never imports those classes: its `raise
EncryptionError(...)`, `raise DecryptionError(...)` and `raise
StorageError(...)` statements reference undefined names, so at runtime the
handler itself fails with Python's builtin `NameError`.  The error type
therefore contains the package classes (reachable only through
`exceptions.py`/`__init__.py`), the builtins the module can actually raise,
and the library exceptions that occur inside `try` blocks. -/
/-- Exception values observable in this embedding. -/
inductive PyErr where
  | storageError (msg : String)
  | encryptionError (msg : String)
  | decryptionError (msg : String)
  | storageInitializationError (msg : String)
  | storageIOError (msg : String)
  | environmentError (msg : String)
  | nameError (name : String)
  | keyError (key : String)
  | typeError (msg : String)
  | valueError (msg : String)
  | fileNotFoundError (msg : String)
  | unicodeEncodeError (msg : String)
  | jsonDecodeError (msg : String)
  | invalidTag
deriving DecidableEq

/-- The exception's class name, for claims that distinguish errors by
class. -/
def PyErr.clsName : PyErr → String
  | .storageError _ => "StorageError"
  | .encryptionError _ => "EncryptionError"
  | .decryptionError _ => "DecryptionError"
  | .storageInitializationError _ => "StorageInitializationError"
  | .storageIOError _ => "StorageIOError"
  | .environmentError _ => "EnvironmentError"
  | .nameError _ => "NameError"
  | .keyError _ => "KeyError"
  | .typeError _ => "TypeError"
  | .valueError _ => "ValueError"
  | .fileNotFoundError _ => "FileNotFoundError"
  | .unicodeEncodeError _ => "UnicodeEncodeError"
  | .jsonDecodeError _ => "JSONDecodeError"
  | .invalidTag => "InvalidTag"

/-- Subclass-of-`StorageError` test, from the hierarchy in
`exceptions.py` (all four specific classes derive from `StorageError`). -/
def PyErr.isStorageError : PyErr → Bool
  | .storageError _ => true
  | .encryptionError _ => true
  | .decryptionError _ => true
  | .storageInitializationError _ => true
  | .storageIOError _ => true
  | _ => false

/-- The exception class names `exceptions.py` defines. -/
def storageExceptionNames : List String :=
  ["StorageError", "EncryptionError", "DecryptionError",
   "StorageInitializationError", "StorageIOError"]

/-! ## The `SecureStorage` class (src/storage/secure_storage.py)

State that Python keeps ambient is explicit here: `os.environ` is an
`EnvMap` passed to each operation (the source reads it at call time in
`_derive_key`, not only at construction), the filesystem is an `FSState`,
and `secrets.token_bytes` draws are the `salt`/`nonce` arguments of
`encrypt_data`/`store_encrypted`. -/
/-- Model of `os.environ`: variable name to value (a Python string). -/
def EnvMap := List (String × List Nat)

/-- Model of `os.getenv` / `os.environ[...]` lookup. -/
def getenv (e : EnvMap) (k : String) : Option (List Nat) :=
  (List.find? (fun p => p.1 == k) e).map (fun p => p.2)

/-- The filesystem: path to text contents. -/
def FSState := List (String × List Nat)

/-- Read a file (`open(path, "r")` + `read`). -/
def readFile (fs : FSState) (path : String) : Option (List Nat) :=
  (List.find? (fun p => p.1 == path) fs).map (fun p => p.2)

/-- Write a file (`open(path, "w")` + write), overwriting. -/
def writeFile (fs : FSState) (path : String) (contents : List Nat) : FSState :=
  (path, contents) :: fs

/-- Default of the `key_env_var` parameter of `SecureStorage.__init__`. -/
def defaultKeyEnvVar : String := "VAULTGPT_ENCRYPTION_KEY"

/-- A constructed `SecureStorage` instance: `__init__` stores only the
environment-variable NAME on `self`. -/
structure SecureStorage where
  key_env_var : String
deriving DecidableEq

/-- Python dict field access (`d[k]`); with duplicate keys the last binding
wins, as in a Python dict literal. -/
def pyDictGet (kvs : List (List Nat × Json)) (k : List Nat) : Option Json :=
  (List.find? (fun p => p.1 == k) kvs.reverse).map (fun p => p.2)

/-- The code points of `"ciphertext"`. -/
def ciphertextKey : List Nat := [99, 105, 112, 104, 101, 114, 116, 101, 120, 116]

/-- The code points of `"salt"`. -/
def saltKey : List Nat := [115, 97, 108, 116]

/-- The code points of `"nonce"`. -/
def nonceKey : List Nat := [110, 111, 110, 99, 101]

namespace SecureStorage

/-- Class constant `SALT_LENGTH`. -/
def SALT_LENGTH : Nat := 16

/-- Class constant `NONCE_LENGTH`. -/
def NONCE_LENGTH : Nat := 12

/-- Class constant `KEY_LENGTH` (256-bit AES key). -/
def KEY_LENGTH : Nat := 32

/-- Class constant `ITERATIONS` (PBKDF2 iteration count). -/
def ITERATIONS : Nat := 100000

/-- Model of `__init__` + `_validate_environment`: store the variable name, then
fail with the builtin `EnvironmentError` when `os.getenv` returns a falsy
value (absent, or present but empty). -/
def init (env : EnvMap) (key_env_var : String) : Except PyErr SecureStorage :=
  match getenv env key_env_var with
  | none => .error (.environmentError
      ("Encryption key not found in environment variable: " ++ key_env_var))
  | some [] => .error (.environmentError
      ("Encryption key not found in environment variable: " ++ key_env_var))
  | some (_ :: _) => .ok ⟨key_env_var⟩

/-- Model of `_derive_key`: read the master key from `os.environ` AT CALL TIME,
UTF-8-encode it, and run the KDF with the class constants. -/
def _derive_key (st : SecureStorage) (env : EnvMap) (salt : List Nat) :
    Except PyErr (List Nat) :=
  match getenv env st.key_env_var with
  | none => .error (.keyError st.key_env_var)
  | some master =>
    match strEncodeUtf8 master with
    | none => .error (.unicodeEncodeError "surrogates not allowed")
    | some masterBytes => .ok (pbkdf2Sha256 masterBytes salt ITERATIONS KEY_LENGTH)

/-- The payload conversion at the top of `encrypt_data`: `str` values are
UTF-8 encoded, `dict` values are JSON-serialized then encoded, anything
else is passed to the AEAD unchanged — a non-bytes value (e.g. a Python
`list`) then raises `TypeError` inside `AESGCM.encrypt`. -/
inductive PyData where
  | str (s : List Nat)
  | bytes (b : List Nat)
  | dict (kvs : List (List Nat × Json))
  | list (xs : List Json)

/-- Payload-to-bytes conversion (the `isinstance` chain in
`encrypt_data`, with the AEAD's `TypeError` for non-bytes payloads). -/
def encodePayload : PyData → Except PyErr (List Nat)
  | .str s =>
    match strEncodeUtf8 s with
    | none => .error (.unicodeEncodeError "surrogates not allowed")
    | some bs => .ok bs
  | .dict kvs =>
    match strEncodeUtf8 (dumpsVal (.obj kvs)) with
    | none => .error (.unicodeEncodeError "surrogates not allowed")
    | some bs => .ok bs
  | .bytes b => .ok b
  | .list _ => .error (.typeError "data must be bytes")

/-- The body of `encrypt_data`'s `try` block.  `salt` and `nonce` are the
`secrets.token_bytes` draws. -/
def encryptBody (st : SecureStorage) (env : EnvMap) (salt nonce : List Nat)
    (data : PyData) : Except PyErr (List (List Nat × Json)) := do
  let data_bytes ← encodePayload data
  let key ← st._derive_key env salt
  let encrypted_data := aesgcmEncrypt key nonce data_bytes none
  .ok [(ciphertextKey, .str (b64encode encrypted_data)),
       (saltKey, .str (b64encode salt)),
       (nonceKey, .str (b64encode nonce))]

/-- Model of `encrypt_data`: on any failure the handler executes
`raise EncryptionError(...)`, but `secure_storage.py` never imports
`EncryptionError`, so the name lookup itself raises `NameError`. -/
def encrypt_data (st : SecureStorage) (env : EnvMap) (salt nonce : List Nat)
    (data : PyData) : Except PyErr (List (List Nat × Json)) :=
  match encryptBody st env salt nonce data with
  | .ok envelope => .ok envelope
  | .error _ => .error (.nameError "EncryptionError")

/-- Values `decrypt_data` can return: parsed JSON, a string, or bytes. -/
inductive PyValue where
  | json (j : Json)
  | str (s : List Nat)
  | bytes (b : List Nat)

/-- One envelope field: must be a string (else `b64decode` raises
`TypeError`), then base64-decoded (`binascii.Error` is a `ValueError`). -/
def b64decodeField : Json → Except PyErr (List Nat)
  | .str s =>
    match b64decode s with
    | some bs => .ok bs
    | none => .error (.valueError "Invalid base64-encoded string")
  | _ => .error (.typeError "argument should be a bytes-like object or ASCII string")

/-- The three-way interpretation of decrypted plaintext (the inner
`try/except` of `decrypt_data`): UTF-8 JSON, else UTF-8 text, else raw
bytes.  Total: each stage's failure falls through to the next. -/
def interpretPlaintext (bs : List Nat) : PyValue :=
  match utf8Decode bs with
  | some decoded =>
    match loads decoded with
    | some j => .json j
    | none => .str decoded
  | none => .bytes bs

/-- The body of `decrypt_data`'s `try` block. -/
def decryptBody (st : SecureStorage) (env : EnvMap)
    (encrypted_data : List (List Nat × Json)) : Except PyErr PyValue := do
  let ctField ← match pyDictGet encrypted_data ciphertextKey with
    | none => Except.error (.keyError "ciphertext")
    | some j => Except.ok j
  let ciphertext ← b64decodeField ctField
  let saltField ← match pyDictGet encrypted_data saltKey with
    | none => Except.error (.keyError "salt")
    | some j => Except.ok j
  let salt ← b64decodeField saltField
  let nonceField ← match pyDictGet encrypted_data nonceKey with
    | none => Except.error (.keyError "nonce")
    | some j => Except.ok j
  let nonce ← b64decodeField nonceField
  let key ← st._derive_key env salt
  match aesgcmDecrypt key nonce ciphertext none with
  | none => Except.error .invalidTag
  | some decrypted_data => Except.ok (interpretPlaintext decrypted_data)

/-- Model of `decrypt_data`: both handlers (`except InvalidTag` and the generic
`except Exception`) execute `raise DecryptionError(...)`, a name
`secure_storage.py` never imports, so both fail with `NameError`. -/
def decrypt_data (st : SecureStorage) (env : EnvMap)
    (encrypted_data : List (List Nat × Json)) : Except PyErr PyValue :=
  match decryptBody st env encrypted_data with
  | .ok v => .ok v
  | .error .invalidTag => .error (.nameError "DecryptionError")
  | .error _ => .error (.nameError "DecryptionError")

/-- Model of `store_encrypted`: encrypt, then `json.dump` the envelope to the file.
The handler's `raise StorageError(...)` references an unimported name, so
failures surface as `NameError`. -/
def store_encrypted (st : SecureStorage) (env : EnvMap) (salt nonce : List Nat)
    (data : PyData) (storage_path : String) (fs : FSState) : Except PyErr FSState :=
  match st.encrypt_data env salt nonce data with
  | .ok encrypted => .ok (writeFile fs storage_path (dumpsVal (.obj encrypted)))
  | .error _ => .error (.nameError "StorageError")

/-- The body of `load_encrypted`'s `try` block: open/read the file,
`json.load` it, and decrypt. -/
def loadBody (st : SecureStorage) (env : EnvMap) (storage_path : String)
    (fs : FSState) : Except PyErr PyValue := do
  let contents ← match readFile fs storage_path with
    | none => Except.error (.fileNotFoundError storage_path)
    | some c => Except.ok c
  let encrypted ← match loads contents with
    | none => Except.error (.jsonDecodeError "Expecting value")
    | some j => Except.ok j
  match encrypted with
  | .obj kvs => st.decrypt_data env kvs
  | _ => Except.error (.typeError "string indices must be integers")

/-- Model of `load_encrypted`: any failure (missing file, JSON parse error, or the
`NameError` escaping `decrypt_data`) is caught, and the handler's
`raise StorageError(...)` again fails with `NameError`. -/
def load_encrypted (st : SecureStorage) (env : EnvMap) (storage_path : String)
    (fs : FSState) : Except PyErr PyValue :=
  match loadBody st env storage_path fs with
  | .ok v => .ok v
  | .error _ => .error (.nameError "StorageError")

/-! ## Fixtures for concrete witnesses and counterexamples -/
/-- A concrete environment: variable `"K"` holds the secret `"key"`. -/
def testEnv : EnvMap := [("K", [107, 101, 121])]

/-- Storage handle constructed against `testEnv`. -/
def testStorage : SecureStorage := ⟨"K"⟩

/-- A concrete 16-byte salt draw. -/
def testSalt : List Nat := [1, 2, 3, 4, 5, 6, 7, 8, 9, 10, 11, 12, 13, 14, 15, 16]

/-- A concrete 12-byte nonce draw. -/
def testNonce : List Nat := [21, 22, 23, 24, 25, 26, 27, 28, 29, 30, 31, 32]

/-- The derived key for `testEnv`/`testSalt`. -/
def testKey : List Nat :=
  pbkdf2Sha256 (utf8Encode [107, 101, 121]) testSalt ITERATIONS KEY_LENGTH

/-- The ciphertext of the payload `"hi"` under the test fixtures. -/
def testCt : List Nat := aesgcmEncrypt testKey testNonce [104, 105] none

/-- The ciphertext `testCt` with one bit of its first byte flipped. -/
def tamperedCt : List Nat :=
  match testCt with
  | b :: rest => (b ^^^ 1) :: rest
  | [] => []

end SecureStorage

theorem b64Index_b64Char : ∀ i < 64, b64Index (b64Char i) = some i := by decide

theorem b64Char_ne_pad : ∀ i < 64, b64Char i ≠ 61 := by decide

theorem b64IsAlpha_b64Char : ∀ i < 64, b64IsAlpha (b64Char i) = true := by decide

/-- Every character emitted by `b64encode` survives the decoder's filter. -/
theorem b64encode_chars : ∀ bs : List Nat, (∀ b ∈ bs, b < 256) →
    ∀ c ∈ b64encode bs, (b64IsAlpha c || c == 61) = true
  | [], _ => by simp [b64encode]
  | [a], h => by
      have ha : a < 256 := h a (by simp)
      intro c hc
      simp only [b64encode, List.mem_cons, List.not_mem_nil, or_false] at hc
      rcases hc with rfl | rfl | rfl | rfl
      · simp [b64IsAlpha_b64Char _ (show a / 4 < 64 by omega)]
      · simp [b64IsAlpha_b64Char _ (show a % 4 * 16 < 64 by omega)]
      · simp
      · simp
  | [a, b], h => by
      have ha : a < 256 := h a (by simp)
      have hb : b < 256 := h b (by simp)
      intro c hc
      simp only [b64encode, List.mem_cons, List.not_mem_nil, or_false] at hc
      rcases hc with rfl | rfl | rfl | rfl
      · simp [b64IsAlpha_b64Char _ (show a / 4 < 64 by omega)]
      · simp [b64IsAlpha_b64Char _ (show a % 4 * 16 + b / 16 < 64 by omega)]
      · simp [b64IsAlpha_b64Char _ (show b % 16 * 4 < 64 by omega)]
      · simp
  | a :: b :: c :: rest, h => by
      have ha : a < 256 := h a (by simp)
      have hb : b < 256 := h b (by simp)
      have hc : c < 256 := h c (by simp)
      intro d hd
      simp only [b64encode, List.mem_cons] at hd
      rcases hd with rfl | rfl | rfl | rfl | hd
      · simp [b64IsAlpha_b64Char _ (show a / 4 < 64 by omega)]
      · simp [b64IsAlpha_b64Char _ (show a % 4 * 16 + b / 16 < 64 by omega)]
      · simp [b64IsAlpha_b64Char _ (show b % 16 * 4 + c / 64 < 64 by omega)]
      · simp [b64IsAlpha_b64Char _ (show c % 64 < 64 by omega)]
      · exact b64encode_chars rest (fun x hx => h x (by simp [hx])) d hd

/-- Group-level decode inverts encode on byte lists. -/
theorem b64decodeGroups_b64encode : ∀ bs : List Nat, (∀ b ∈ bs, b < 256) →
    b64decodeGroups (b64encode bs) = some bs
  | [], _ => by simp [b64encode, b64decodeGroups]
  | [a], h => by
      have ha : a < 256 := h a (by simp)
      have h1 := b64Index_b64Char (a / 4) (by omega)
      have h2 := b64Index_b64Char (a % 4 * 16) (by omega)
      simp [b64encode, b64decodeGroups, h1, h2]
      omega
  | [a, b], h => by
      have ha : a < 256 := h a (by simp)
      have hb : b < 256 := h b (by simp)
      have h1 := b64Index_b64Char (a / 4) (by omega)
      have h2 := b64Index_b64Char (a % 4 * 16 + b / 16) (by omega)
      have h3 := b64Index_b64Char (b % 16 * 4) (by omega)
      have h3ne := b64Char_ne_pad (b % 16 * 4) (by omega)
      simp [b64encode, b64decodeGroups, h1, h2, h3, h3ne]
      omega
  | a :: b :: c :: rest, h => by
      have ha : a < 256 := h a (by simp)
      have hb : b < 256 := h b (by simp)
      have hc : c < 256 := h c (by simp)
      have h1 := b64Index_b64Char (a / 4) (by omega)
      have h2 := b64Index_b64Char (a % 4 * 16 + b / 16) (by omega)
      have h3 := b64Index_b64Char (b % 16 * 4 + c / 64) (by omega)
      have h4 := b64Index_b64Char (c % 64) (by omega)
      have h4ne := b64Char_ne_pad (c % 64) (by omega)
      have ih := b64decodeGroups_b64encode rest (fun x hx => h x (by simp [hx]))
      simp [b64encode, b64decodeGroups, h1, h2, h3, h4, h4ne, ih]
      omega

/-- Round trip: base64 decoding inverts base64 encoding on byte lists. -/
theorem b64decode_b64encode (bs : List Nat) (h : ∀ b ∈ bs, b < 256) :
    b64decode (b64encode bs) = some bs := by
  unfold b64decode
  rw [List.filter_eq_self.mpr (b64encode_chars bs h)]
  exact b64decodeGroups_b64encode bs h

/-- Length of `b64encode` output: four characters per three-byte block. -/
theorem b64encode_length : ∀ bs : List Nat,
    (b64encode bs).length = (bs.length + 2) / 3 * 4
  | [] => by simp [b64encode]
  | [_] => by simp [b64encode]
  | [_, _] => by simp [b64encode]
  | _ :: _ :: _ :: rest => by
      simp only [b64encode, List.length_cons, b64encode_length rest]
      omega

theorem utf8DecodeAux_nil (fuel : Nat) : utf8DecodeAux fuel [] = some [] := by
  cases fuel <;> rfl

/-- The decoder inverts the encoder on valid strings, given enough fuel. -/
theorem utf8DecodeAux_utf8Encode :
    ∀ (s : List Nat) (fuel : Nat), ValidStr s →
      (utf8Encode s).length ≤ fuel → utf8DecodeAux fuel (utf8Encode s) = some s
  | [], fuel, _, _ => by simpa [utf8Encode] using utf8DecodeAux_nil fuel
  | c :: cs, fuel, hv, hlen => by
      have hc := hv c (by simp)
      have hcs : ValidStr cs := fun x hx => hv x (by simp [hx])
      have ih := utf8DecodeAux_utf8Encode cs
      rw [show utf8Encode (c :: cs) = utf8EncodeChar c ++ utf8Encode cs from rfl] at *
      by_cases h1 : c < 0x80
      · rw [show utf8EncodeChar c = [c] from by rw [utf8EncodeChar]; simp [h1]] at *
        rw [show [c] ++ utf8Encode cs = c :: utf8Encode cs from rfl] at *
        obtain ⟨f, rfl⟩ : ∃ f, fuel = f + 1 := by
          cases fuel with
          | zero => simp at hlen
          | succ f => exact ⟨f, rfl⟩
        simp only [utf8DecodeAux, if_pos h1]
        rw [ih f hcs (by simp only [List.length_cons] at hlen; omega)]
        rfl
      · by_cases h2 : c < 0x800
        · rw [show utf8EncodeChar c = [0xC0 + c / 64, 0x80 + c % 64] from by
            rw [utf8EncodeChar]; simp [h1, h2]] at *
          rw [show [0xC0 + c / 64, 0x80 + c % 64] ++ utf8Encode cs =
            (0xC0 + c / 64) :: (0x80 + c % 64) :: utf8Encode cs from rfl] at *
          obtain ⟨f, rfl⟩ : ∃ f, fuel = f + 1 := by
            cases fuel with
            | zero => simp at hlen
            | succ f => exact ⟨f, rfl⟩
          simp only [utf8DecodeAux]
          rw [if_neg (by omega), if_neg (by omega), if_pos (by omega), if_pos (by omega)]
          rw [show (0xC0 + c / 64 - 0xC0) * 64 + (0x80 + c % 64 - 0x80) = c by omega]
          rw [ih f hcs (by simp only [List.length_cons] at hlen; omega)]
          rfl
        · by_cases h3 : c < 0x10000
          · rw [show utf8EncodeChar c =
                [0xE0 + c / 4096, 0x80 + c / 64 % 64, 0x80 + c % 64] from by
              rw [utf8EncodeChar]; simp [h1, h2, h3]] at *
            rw [show [0xE0 + c / 4096, 0x80 + c / 64 % 64, 0x80 + c % 64] ++ utf8Encode cs =
              (0xE0 + c / 4096) :: (0x80 + c / 64 % 64) :: (0x80 + c % 64) :: utf8Encode cs
              from rfl] at *
            obtain ⟨f, rfl⟩ : ∃ f, fuel = f + 1 := by
              cases fuel with
              | zero => simp at hlen
              | succ f => exact ⟨f, rfl⟩
            simp only [utf8DecodeAux]
            rw [if_neg (by omega), if_neg (by omega), if_neg (by omega),
              if_pos (by omega), if_pos (by omega)]
            rw [show (0xE0 + c / 4096 - 0xE0) * 4096 + (0x80 + c / 64 % 64 - 0x80) * 64 +
              (0x80 + c % 64 - 0x80) = c by omega]
            rw [ih f hcs (by simp only [List.length_cons] at hlen; omega)]
            rfl
          · have h4 : c < 0x110000 := by rcases hc with h | h <;> omega
            rw [show utf8EncodeChar c =
                [0xF0 + c / 262144, 0x80 + c / 4096 % 64, 0x80 + c / 64 % 64, 0x80 + c % 64]
              from by rw [utf8EncodeChar]; simp [h1, h2, h3]] at *
            rw [show [0xF0 + c / 262144, 0x80 + c / 4096 % 64, 0x80 + c / 64 % 64, 0x80 + c % 64] ++
              utf8Encode cs = (0xF0 + c / 262144) :: (0x80 + c / 4096 % 64) ::
              (0x80 + c / 64 % 64) :: (0x80 + c % 64) :: utf8Encode cs from rfl] at *
            obtain ⟨f, rfl⟩ : ∃ f, fuel = f + 1 := by
              cases fuel with
              | zero => simp at hlen
              | succ f => exact ⟨f, rfl⟩
            simp only [utf8DecodeAux]
            rw [if_neg (by omega), if_neg (by omega), if_neg (by omega),
              if_neg (by omega), if_pos (by omega), if_pos (by omega)]
            rw [show (0xF0 + c / 262144 - 0xF0) * 262144 + (0x80 + c / 4096 % 64 - 0x80) * 4096 +
              (0x80 + c / 64 % 64 - 0x80) * 64 + (0x80 + c % 64 - 0x80) = c by omega]
            rw [ih f hcs (by simp only [List.length_cons] at hlen; omega)]
            rfl

/-- Round trip: UTF-8 decoding inverts UTF-8 encoding on valid strings. -/
theorem utf8Decode_utf8Encode (s : List Nat) (h : ValidStr s) :
    utf8Decode (utf8Encode s) = some s :=
  utf8DecodeAux_utf8Encode s (utf8Encode s).length h le_rfl

/-- UTF-8 encoding produces bytes. -/
theorem utf8Encode_lt256 : ∀ s : List Nat, ValidStr s → ∀ b ∈ utf8Encode s, b < 256
  | [], _ => by simp [utf8Encode]
  | c :: cs, h => by
      have hc := h c (by simp)
      have ih := utf8Encode_lt256 cs (fun x hx => h x (by simp [hx]))
      intro b hb
      rw [show utf8Encode (c :: cs) = utf8EncodeChar c ++ utf8Encode cs from rfl] at hb
      rcases List.mem_append.mp hb with hb | hb
      · rw [utf8EncodeChar] at hb
        split_ifs at hb <;>
          simp only [List.mem_cons, List.not_mem_nil, or_false] at hb <;> omega
      · exact ih b hb

/-- On pure-ASCII strings the UTF-8 encoding is the identity. -/
theorem utf8Encode_ascii : ∀ s : List Nat, (∀ c ∈ s, c < 0x80) → utf8Encode s = s
  | [], _ => rfl
  | c :: cs, h => by
      have hc : c < 0x80 := h c (by simp)
      rw [show utf8Encode (c :: cs) = utf8EncodeChar c ++ utf8Encode cs from rfl,
        show utf8EncodeChar c = [c] from by rw [utf8EncodeChar]; simp [hc],
        utf8Encode_ascii cs (fun x hx => h x (by simp [hx]))]
      rfl

theorem escChar_nice (c : Nat) (h : NiceChar c) : escChar c = [c] := by
  obtain ⟨h1, h2, h3, h4⟩ := h
  rw [escChar]
  rw [if_neg h3, if_neg h4, if_neg (by omega), if_neg (by omega), if_neg (by omega),
    if_neg (by omega), if_neg (by omega), if_neg (by omega), if_pos (by omega)]

theorem escBody_nice : ∀ s : List Nat, NiceStr s → escBody s = s
  | [], _ => rfl
  | c :: cs, h => by
      rw [escBody, escChar_nice c (h c (by simp)),
        escBody_nice cs (fun x hx => h x (by simp [hx]))]
      rfl

theorem skipWs_cons (c : Nat) (l : List Nat) (h : isWs c = false) :
    skipWs (c :: l) = c :: l := by
  rw [skipWs, h]
  simp

theorem parseStringBody_quote (f : Nat) (rest : List Nat) :
    parseStringBody (f + 1) (34 :: rest) = some ([], rest) := rfl

theorem parseStringBody_other (f c : Nat) (cs : List Nat) (h3 : c ≠ 34) (h4 : c ≠ 92)
    (h5 : ¬ c < 0x20) :
    parseStringBody (f + 1) (c :: cs) =
      (parseStringBody f cs).map (fun p => (c :: p.1, p.2)) := by
  rw [parseStringBody]
  rw [if_neg h3, if_neg h4, if_neg h5]

theorem parseStringBody_nice : ∀ (s : List Nat) (fuel : Nat) (rest : List Nat),
    NiceStr s → s.length + 1 ≤ fuel →
    parseStringBody fuel (s ++ (34 :: rest)) = some (s, rest)
  | [], fuel, rest, _, hf => by
      obtain ⟨f, rfl⟩ : ∃ f, fuel = f + 1 := ⟨fuel - 1, by omega⟩
      exact parseStringBody_quote f rest
  | c :: cs, fuel, rest, h, hf => by
      obtain ⟨h1, h2, h3, h4⟩ := h c (by simp)
      obtain ⟨f, rfl⟩ : ∃ f, fuel = f + 1 := ⟨fuel - 1, by omega⟩
      rw [show (c :: cs) ++ (34 :: rest) = c :: (cs ++ (34 :: rest)) from rfl]
      rw [parseStringBody_other f c _ h3 h4 (by omega)]
      rw [parseStringBody_nice cs f rest (fun x hx => h x (by simp [hx]))
        (by simp only [List.length_cons] at hf; omega)]
      rfl

theorem parseValue_strHead (g : Nat) (X : List Nat) :
    parseValue (g + 1) (34 :: X) =
      (parseStringBody (X.length + 1) X).map (fun p => (Json.str p.1, p.2)) := rfl

/-- Parsing a serialized string literal. -/
theorem parseValue_strLit (g : Nat) (v rest : List Nat) (hv : NiceStr v) :
    parseValue (g + 1) (34 :: (v ++ (34 :: rest))) = some (.str v, rest) := by
  rw [parseValue_strHead]
  rw [parseStringBody_nice v _ rest hv
    (by simp only [List.length_append, List.length_cons]; omega)]
  rfl

theorem parseMembers_head (f : Nat) (cs : List Nat) :
    parseMembers (f + 1) (34 :: cs) = (do
      let p1 ← parseStringBody (cs.length + 1) cs
      match skipWs p1.2 with
      | 58 :: r3 => do
        let p2 ← parseValue f (skipWs r3)
        match skipWs p2.2 with
        | 44 :: r6 => do
          let p3 ← parseMembers f (skipWs r6)
          some ((p1.1, p2.1) :: p3.1, p3.2)
        | 125 :: r6 => some ([(p1.1, p2.1)], r6)
        | _ => none
      | _ => none) := rfl

theorem skipWs_space (X : List Nat) : skipWs (32 :: X) = skipWs X := rfl

/-- Object members of string values parse back from their serialization. -/
theorem parseMembers_strObj :
    ∀ (kvs : List (List Nat × List Nat)) (fuel : Nat) (rest : List Nat),
    (∀ p ∈ kvs, NiceStr p.1 ∧ NiceStr p.2) → kvs ≠ [] → kvs.length + 1 ≤ fuel →
    parseMembers fuel
        (dumpsObj (kvs.map (fun p => (p.1, Json.str p.2))) ++ (125 :: rest)) =
      some (kvs.map (fun p => (p.1, Json.str p.2)), rest)
  | [], _, _, _, hne, _ => absurd rfl hne
  | [(k, v)], fuel, rest, h, _, hf => by
      obtain ⟨hk, hv⟩ := h (k, v) (by simp)
      obtain ⟨g, rfl⟩ : ∃ g, fuel = g + 2 := ⟨fuel - 2, by simp at hf; omega⟩
      simp only [List.map_cons, List.map_nil, dumpsObj, dumpsVal,
        escBody_nice k hk, escBody_nice v hv]
      rw [show 34 :: (k ++ (34 :: 58 :: 32 :: (34 :: (v ++ [34])))) ++ (125 :: rest) =
        34 :: (k ++ (34 :: (58 :: 32 :: 34 :: (v ++ (34 :: (125 :: rest)))))) from by simp]
      rw [show g + 2 = (g + 1) + 1 from rfl, parseMembers_head]
      have e1 := parseStringBody_nice k
        ((k ++ (34 :: (58 :: 32 :: 34 :: (v ++ (34 :: (125 :: rest)))))).length + 1)
        (58 :: 32 :: 34 :: (v ++ (34 :: (125 :: rest)))) hk
        (by simp only [List.length_append, List.length_cons]; omega)
      have e2 := parseValue_strLit g v (125 :: rest) hv
      simp only [List.length_append, List.length_cons] at e1
      simp [e1, e2, skipWs, isWs]
  | (k, v) :: q :: kvs, fuel, rest, h, _, hf => by
      obtain ⟨hk, hv⟩ := h (k, v) (by simp)
      obtain ⟨g, rfl⟩ : ∃ g, fuel = g + 2 := ⟨fuel - 2, by simp at hf; omega⟩
      have ih := parseMembers_strObj (q :: kvs) (g + 1) rest
        (fun p hp => h p (by simp [hp])) (by simp)
        (by simp only [List.length_cons] at hf ⊢; omega)
      simp only [List.map_cons] at ih
      obtain ⟨t, ht⟩ : ∃ t, dumpsObj ((q.1, Json.str q.2) ::
          List.map (fun p => (p.1, Json.str p.2)) kvs) = 34 :: t := by
        cases kvs <;> exact ⟨_, rfl⟩
      simp only [List.map_cons, dumpsObj, dumpsVal, escBody_nice k hk, escBody_nice v hv]
      rw [ht] at ih ⊢
      simp only [List.cons_append] at ih
      simp only [List.cons_append, List.append_assoc, List.nil_append]
      rw [show g + 2 = (g + 1) + 1 from rfl, parseMembers_head]
      have e1 := parseStringBody_nice k
        ((k ++ 34 :: 58 :: 32 :: 34 :: (v ++ 34 :: 44 :: 32 :: 34 ::
          (t ++ 125 :: rest))).length + 1)
        (58 :: 32 :: 34 :: (v ++ 34 :: 44 :: 32 :: 34 :: (t ++ 125 :: rest))) hk
        (by simp only [List.length_append, List.length_cons]; omega)
      have e2 := parseValue_strLit g v
        (44 :: 32 :: 34 :: (t ++ 125 :: rest)) hv
      simp only [List.length_append, List.length_cons] at e1
      simp [e1, e2, skipWs, isWs, ih]

theorem parseValue_objHead (f : Nat) (cs : List Nat) :
    parseValue (f + 1) (123 :: cs) =
      (match skipWs cs with
      | 125 :: r => some (.obj [], r)
      | cs1 => (parseMembers f cs1).map (fun p => (Json.obj p.1, p.2))) := rfl

/-- A serialized flat object of nice strings parses back, leaving the rest. -/
theorem parseValue_strObj (kvs : List (List Nat × List Nat)) (f : Nat) (rest : List Nat)
    (h : ∀ p ∈ kvs, NiceStr p.1 ∧ NiceStr p.2) (hf : kvs.length + 2 ≤ f) :
    parseValue f (dumpsVal (.obj (kvs.map (fun p => (p.1, Json.str p.2)))) ++ rest) =
      some (.obj (kvs.map (fun p => (p.1, Json.str p.2))), rest) := by
  obtain ⟨g, rfl⟩ : ∃ g, f = g + 1 := ⟨f - 1, by omega⟩
  rw [show dumpsVal (.obj (kvs.map (fun p => (p.1, Json.str p.2)))) =
    123 :: (dumpsObj (kvs.map (fun p => (p.1, Json.str p.2))) ++ [125]) from rfl]
  rw [show (123 :: (dumpsObj (kvs.map (fun p => (p.1, Json.str p.2))) ++ [125])) ++ rest =
    123 :: (dumpsObj (kvs.map (fun p => (p.1, Json.str p.2))) ++ (125 :: rest)) from by simp]
  rw [parseValue_objHead]
  match kvs, h with
  | [], _ => rfl
  | (k, v) :: kvs, h =>
    obtain ⟨t, ht⟩ : ∃ t, dumpsObj (((k, v) :: kvs).map (fun p => (p.1, Json.str p.2))) =
        34 :: t := by
      cases kvs <;> exact ⟨_, rfl⟩
    have hm := parseMembers_strObj ((k, v) :: kvs) g rest h (by simp)
      (by simp only [List.length_cons] at hf ⊢; omega)
    rw [ht] at hm ⊢
    simp only [List.cons_append, List.map_cons] at hm
    simp only [List.cons_append]
    rw [skipWs_cons 34 _ (by rfl)]
    simp [hm]

theorem dumpsObj_length_ge : ∀ kvs : List (List Nat × Json),
    kvs.length ≤ (dumpsObj kvs).length
  | [] => by simp [dumpsObj]
  | [(k, v)] => by simp [dumpsObj]
  | (k, v) :: q :: kvs => by
      have := dumpsObj_length_ge (q :: kvs)
      simp only [List.length_cons] at this ⊢
      simp only [dumpsObj, List.length_cons, List.length_append]
      omega

/-- Parsing inverts serialization (`json.loads` of `json.dumps`) on flat objects of nice strings. -/
theorem loads_dumps_strObj (kvs : List (List Nat × List Nat))
    (h : ∀ p ∈ kvs, NiceStr p.1 ∧ NiceStr p.2) :
    loads (dumpsVal (.obj (kvs.map (fun p => (p.1, Json.str p.2))))) =
      some (.obj (kvs.map (fun p => (p.1, Json.str p.2)))) := by
  have hlen : kvs.length + 2 ≤
      (dumpsVal (.obj (kvs.map (fun p => (p.1, Json.str p.2))))).length + 1 := by
    rw [show dumpsVal (.obj (kvs.map (fun p => (p.1, Json.str p.2)))) =
      123 :: (dumpsObj (kvs.map (fun p => (p.1, Json.str p.2))) ++ [125]) from rfl]
    have := dumpsObj_length_ge (kvs.map (fun p => (p.1, Json.str p.2)))
    simp only [List.length_cons, List.length_append, List.length_map] at this ⊢
    omega
  have hv := parseValue_strObj kvs
    ((dumpsVal (.obj (kvs.map (fun p => (p.1, Json.str p.2))))).length + 1) [] h hlen
  rw [loads]
  rw [show skipWs (dumpsVal (.obj (kvs.map (fun p => (p.1, Json.str p.2))))) =
    dumpsVal (.obj (kvs.map (fun p => (p.1, Json.str p.2)))) from
    skipWs_cons 123 _ (by rfl)]
  rw [List.append_nil] at hv
  simp [hv, skipWs]

/-! ### All `json.dumps` output is ASCII (`ensure_ascii=True`) -/
theorem hexDigit_lt (n : Nat) (h : n < 16) : hexDigit n < 0x80 := by
  rw [hexDigit]; split <;> omega

theorem uEscape_ascii (n : Nat) : ∀ d ∈ uEscape n, d < 0x80 := by
  intro d hd
  simp only [uEscape, List.mem_cons, List.not_mem_nil, or_false] at hd
  rcases hd with rfl | rfl | rfl | rfl | rfl | rfl
  · omega
  · omega
  · exact hexDigit_lt _ (by omega)
  · exact hexDigit_lt _ (by omega)
  · exact hexDigit_lt _ (by omega)
  · exact hexDigit_lt _ (by omega)

set_option maxHeartbeats 1000000 in
theorem escChar_ascii (c : Nat) : ∀ d ∈ escChar c, d < 0x80 := by
  intro d hd
  rw [escChar] at hd
  split_ifs at hd with h1 h2 h3 h4 h5 h6 h7 h8 h9 h10
  · simp only [List.mem_cons, List.not_mem_nil, or_false] at hd; omega
  · simp only [List.mem_cons, List.not_mem_nil, or_false] at hd; omega
  · simp only [List.mem_cons, List.not_mem_nil, or_false] at hd; omega
  · simp only [List.mem_cons, List.not_mem_nil, or_false] at hd; omega
  · simp only [List.mem_cons, List.not_mem_nil, or_false] at hd; omega
  · simp only [List.mem_cons, List.not_mem_nil, or_false] at hd; omega
  · simp only [List.mem_cons, List.not_mem_nil, or_false] at hd; omega
  · exact uEscape_ascii _ _ hd
  · simp only [List.mem_cons, List.not_mem_nil, or_false] at hd; omega
  · exact uEscape_ascii _ _ hd
  · rcases List.mem_append.mp hd with hd | hd <;> exact uEscape_ascii _ _ hd

theorem escBody_ascii : ∀ s : List Nat, ∀ d ∈ escBody s, d < 0x80
  | [], _ => by simp [escBody]
  | c :: cs, d => by
      intro hd
      rw [escBody] at hd
      rcases List.mem_append.mp hd with hd | hd
      · exact escChar_ascii c d hd
      · exact escBody_ascii cs d hd

theorem natDigitsAux_ascii : ∀ (fuel n : Nat), ∀ d ∈ natDigitsAux fuel n, d < 0x80
  | 0, _ => by simp [natDigitsAux]
  | fuel + 1, n => by
      intro d hd
      rw [natDigitsAux] at hd
      split_ifs at hd with h
      · simp only [List.mem_cons, List.not_mem_nil, or_false] at hd; omega
      · rcases List.mem_append.mp hd with hd | hd
        · exact natDigitsAux_ascii fuel (n / 10) d hd
        · simp only [List.mem_cons, List.not_mem_nil, or_false] at hd; omega

theorem intDigits_ascii (n : Int) : ∀ d ∈ intDigits n, d < 0x80 := by
  intro d hd
  rw [intDigits] at hd
  split_ifs at hd
  · rcases List.mem_cons.mp hd with rfl | hd
    · omega
    · exact natDigitsAux_ascii _ _ d hd
  · exact natDigitsAux_ascii _ _ d hd

/-- Every character of a rendered float is ASCII. -/
theorem dumpsFloat_ascii (neg : Bool) (ip fp : List Nat) (ex : Option (Bool × List Nat)) :
    ∀ c ∈ dumpsFloat neg ip fp ex, c < 0x80 := by
  intro c hc
  rw [dumpsFloat.eq_def] at hc
  have hmap : ∀ (l : List Nat), c ∈ l.map (fun d => 48 + d % 10) → c < 0x80 := by
    intro l hl
    obtain ⟨d, _, rfl⟩ := List.mem_map.mp hl
    omega
  rcases List.mem_append.mp hc with hc | hc
  · rcases List.mem_append.mp hc with hc | hc
    · rcases List.mem_append.mp hc with hc | hc
      · split_ifs at hc
        · simp only [List.mem_singleton] at hc; omega
        · simp at hc
      · exact hmap ip hc
    · split_ifs at hc
      · simp at hc
      · rcases List.mem_cons.mp hc with rfl | hc
        · omega
        · exact hmap fp hc
  · rcases ex with _ | ⟨es, ds⟩
    · simp at hc
    · rcases List.mem_cons.mp hc with rfl | hc
      · omega
      · rcases List.mem_append.mp hc with hc | hc
        · split_ifs at hc
          · simp only [List.mem_singleton] at hc; omega
          · simp at hc
        · exact hmap ds hc

mutual

theorem dumpsVal_ascii : ∀ j : Json, ∀ c ∈ dumpsVal j, c < 0x80
  | .null => by intro c hc; rw [dumpsVal] at hc; simp at hc; omega
  | .bool true => by intro c hc; rw [dumpsVal] at hc; simp at hc; omega
  | .bool false => by intro c hc; rw [dumpsVal] at hc; simp at hc; omega
  | .int n => by intro c hc; rw [dumpsVal] at hc; exact intDigits_ascii n c hc
  | .float neg ip fp ex => by
      intro c hc; rw [dumpsVal] at hc; exact dumpsFloat_ascii neg ip fp ex c hc
  | .nan => by intro c hc; rw [dumpsVal] at hc; simp at hc; omega
  | .infinity true => by intro c hc; rw [dumpsVal] at hc; simp at hc; omega
  | .infinity false => by intro c hc; rw [dumpsVal] at hc; simp at hc; omega
  | .str s => by
      intro c hc
      rw [dumpsVal] at hc
      rcases List.mem_cons.mp hc with rfl | hc
      · omega
      · rcases List.mem_append.mp hc with hc | hc
        · exact escBody_ascii s c hc
        · simp at hc; omega
  | .arr xs => by
      intro c hc
      rw [dumpsVal] at hc
      rcases List.mem_cons.mp hc with rfl | hc
      · omega
      · rcases List.mem_append.mp hc with hc | hc
        · exact dumpsArr_ascii xs c hc
        · simp at hc; omega
  | .obj kvs => by
      intro c hc
      rw [dumpsVal] at hc
      rcases List.mem_cons.mp hc with rfl | hc
      · omega
      · rcases List.mem_append.mp hc with hc | hc
        · exact dumpsObj_ascii kvs c hc
        · simp at hc; omega
termination_by structural j => j

theorem dumpsArr_ascii : ∀ xs : List Json, ∀ c ∈ dumpsArr xs, c < 0x80
  | [] => by intro c hc; rw [dumpsArr] at hc; simp at hc
  | [x] => by intro c hc; rw [dumpsArr] at hc; exact dumpsVal_ascii x c hc
  | x :: y :: rest => by
      intro c hc
      rw [dumpsArr] at hc
      rcases List.mem_append.mp hc with hc | hc
      · exact dumpsVal_ascii x c hc
      · rcases List.mem_cons.mp hc with rfl | hc
        · omega
        · rcases List.mem_cons.mp hc with rfl | hc
          · omega
          · exact dumpsArr_ascii (y :: rest) c hc
termination_by structural l => l

theorem dumpsObj_ascii : ∀ kvs : List (List Nat × Json), ∀ c ∈ dumpsObj kvs, c < 0x80
  | [] => by intro c hc; rw [dumpsObj] at hc; simp at hc
  | [(k, v)] => by
      intro c hc
      rw [dumpsObj] at hc
      rcases List.mem_cons.mp hc with rfl | hc
      · omega
      · rcases List.mem_append.mp hc with hc | hc
        · exact escBody_ascii k c hc
        · rcases List.mem_cons.mp hc with rfl | hc
          · omega
          · rcases List.mem_cons.mp hc with rfl | hc
            · omega
            · rcases List.mem_cons.mp hc with rfl | hc
              · omega
              · exact dumpsVal_ascii v c hc
  | (k, v) :: p :: rest => by
      intro c hc
      rw [dumpsObj] at hc
      rcases List.mem_cons.mp hc with rfl | hc
      · omega
      · rcases List.mem_append.mp hc with hc | hc
        · exact escBody_ascii k c hc
        · rcases List.mem_cons.mp hc with rfl | hc
          · omega
          · rcases List.mem_cons.mp hc with rfl | hc
            · omega
            · rcases List.mem_cons.mp hc with rfl | hc
              · omega
              · rcases List.mem_append.mp hc with hc | hc
                · exact dumpsVal_ascii v c hc
                · rcases List.mem_cons.mp hc with rfl | hc
                  · omega
                  · rcases List.mem_cons.mp hc with rfl | hc
                    · omega
                    · exact dumpsObj_ascii (p :: rest) c hc
termination_by structural l => l

end

/-- ASCII strings are valid (encodable) Python strings. -/
theorem ascii_validStr (s : List Nat) (h : ∀ c ∈ s, c < 0x80) : ValidStr s :=
  fun c hc => Or.inl (by have := h c hc; omega)

theorem maskBytesAux_length (key nonce : List Nat) :
    ∀ (i : Nat) (bs : List Nat), (maskBytesAux key nonce i bs).length = bs.length
  | _, [] => rfl
  | i, _ :: bs => by
      rw [maskBytesAux, List.length_cons, List.length_cons,
        maskBytesAux_length key nonce (i + 1) bs]

theorem maskBytes_length (key nonce bs : List Nat) :
    (maskBytes key nonce bs).length = bs.length :=
  maskBytesAux_length key nonce 0 bs

theorem maskBytesAux_involutive (key nonce : List Nat) :
    ∀ (i : Nat) (bs : List Nat), maskBytesAux key nonce i (maskBytesAux key nonce i bs) = bs
  | _, [] => rfl
  | i, b :: bs => by
      rw [maskBytesAux, maskBytesAux, Nat.xor_assoc, Nat.xor_self, Nat.xor_zero,
        maskBytesAux_involutive key nonce (i + 1) bs]

theorem maskBytes_involutive (key nonce bs : List Nat) :
    maskBytes key nonce (maskBytes key nonce bs) = bs :=
  maskBytesAux_involutive key nonce 0 bs

theorem maskBytesAux_lt256 (key nonce : List Nat) :
    ∀ (i : Nat) (bs : List Nat), (∀ b ∈ bs, b < 256) →
      ∀ b ∈ maskBytesAux key nonce i bs, b < 256
  | _, [], _ => by simp [maskBytesAux]
  | i, b :: bs, h => by
      intro x hx
      rw [maskBytesAux] at hx
      rcases List.mem_cons.mp hx with rfl | hx
      · have hb : b < 256 := h b (by simp)
        have hk : gcmKeystream key nonce i < 256 := Nat.mod_lt _ (by omega)
        have := Nat.xor_lt_two_pow (show b < 2 ^ 8 by omega)
          (show gcmKeystream key nonce i < 2 ^ 8 by omega)
        omega
      · exact maskBytesAux_lt256 key nonce (i + 1) bs (fun y hy => h y (by simp [hy])) x hx

theorem maskBytes_lt256 (key nonce bs : List Nat) (h : ∀ b ∈ bs, b < 256) :
    ∀ b ∈ maskBytes key nonce bs, b < 256 :=
  maskBytesAux_lt256 key nonce 0 bs h

theorem gcmTag_length (key nonce bs : List Nat) : (gcmTag key nonce bs).length = 16 := by
  simp [gcmTag]

theorem gcmTag_lt256 (key nonce bs : List Nat) : ∀ b ∈ gcmTag key nonce bs, b < 256 := by
  intro b hb
  simp only [gcmTag, List.mem_map] at hb
  obtain ⟨i, _, rfl⟩ := hb
  exact Nat.mod_lt _ (by omega)

theorem pbkdf2Sha256_length (masterKey salt : List Nat) (iterations length : Nat) :
    (pbkdf2Sha256 masterKey salt iterations length).length = length := by
  simp [pbkdf2Sha256]

theorem aesgcmEncrypt_length (key nonce pt : List Nat) (ad : Option (List Nat)) :
    (aesgcmEncrypt key nonce pt ad).length = pt.length + 16 := by
  simp [aesgcmEncrypt, List.length_append, maskBytes_length, gcmTag_length]

theorem aesgcmEncrypt_lt256 (key nonce pt : List Nat) (ad : Option (List Nat))
    (h : ∀ b ∈ pt, b < 256) : ∀ b ∈ aesgcmEncrypt key nonce pt ad, b < 256 := by
  intro b hb
  rcases List.mem_append.mp hb with hb | hb
  · exact maskBytes_lt256 key nonce pt h b hb
  · exact gcmTag_lt256 key nonce _ b hb

/-- AEAD round trip: decryption inverts encryption under the same key,
nonce and associated data. -/
theorem aesgcmDecrypt_aesgcmEncrypt (key nonce pt : List Nat) (ad : Option (List Nat)) :
    aesgcmDecrypt key nonce (aesgcmEncrypt key nonce pt ad) ad = some pt := by
  have hlen := aesgcmEncrypt_length key nonce pt ad
  rw [aesgcmDecrypt, if_neg (by omega)]
  have htake : (aesgcmEncrypt key nonce pt ad).take
      ((aesgcmEncrypt key nonce pt ad).length - 16) = maskBytes key nonce pt := by
    rw [hlen, aesgcmEncrypt]
    rw [show pt.length + 16 - 16 = (maskBytes key nonce pt).length from by
      rw [maskBytes_length]; omega]
    exact List.take_left _ _
  have hdrop : (aesgcmEncrypt key nonce pt ad).drop
      ((aesgcmEncrypt key nonce pt ad).length - 16) =
      gcmTag key nonce (ad.getD [] ++ maskBytes key nonce pt) := by
    rw [hlen, aesgcmEncrypt]
    rw [show pt.length + 16 - 16 = (maskBytes key nonce pt).length from by
      rw [maskBytes_length]; omega]
    exact List.drop_left _ _
  rw [htake, hdrop, if_pos rfl, maskBytes_involutive]

namespace SecureStorage

theorem ok_bind {ε α β : Type} (a : α) (f : α → Except ε β) :
    (Except.ok a : Except ε α) >>= f = f a := rfl

theorem error_bind {ε α β : Type} (e : ε) (f : α → Except ε β) :
    (Except.error e : Except ε α) >>= f = Except.error e := rfl

theorem _derive_key_eq (st : SecureStorage) (env : EnvMap) (master salt : List Nat)
    (hm : getenv env st.key_env_var = some master) (hvm : ValidStr master) :
    st._derive_key env salt =
      .ok (pbkdf2Sha256 (utf8Encode master) salt ITERATIONS KEY_LENGTH) := by
  simp only [_derive_key, hm, strEncodeUtf8, hvm, if_true]

theorem encryptBody_eq (st : SecureStorage) (env : EnvMap) (master salt nonce : List Nat)
    (data : PyData) (pt : List Nat)
    (hm : getenv env st.key_env_var = some master) (hvm : ValidStr master)
    (hpt : encodePayload data = .ok pt) :
    encryptBody st env salt nonce data =
      .ok [(ciphertextKey, .str (b64encode (aesgcmEncrypt
              (pbkdf2Sha256 (utf8Encode master) salt ITERATIONS KEY_LENGTH) nonce pt none))),
           (saltKey, .str (b64encode salt)),
           (nonceKey, .str (b64encode nonce))] := by
  simp only [encryptBody, hpt, _derive_key_eq st env master salt hm hvm]
  rfl

theorem pyDictGet_envelope_ct (c s n : Json) :
    pyDictGet [(ciphertextKey, c), (saltKey, s), (nonceKey, n)] ciphertextKey = some c := rfl

theorem pyDictGet_envelope_salt (c s n : Json) :
    pyDictGet [(ciphertextKey, c), (saltKey, s), (nonceKey, n)] saltKey = some s := rfl

theorem pyDictGet_envelope_nonce (c s n : Json) :
    pyDictGet [(ciphertextKey, c), (saltKey, s), (nonceKey, n)] nonceKey = some n := rfl

theorem decryptBody_envelope (st : SecureStorage) (env : EnvMap)
    (master ct salt nonce : List Nat)
    (hm : getenv env st.key_env_var = some master) (hvm : ValidStr master)
    (hct : ∀ b ∈ ct, b < 256) (hsalt : ∀ b ∈ salt, b < 256) (hnonce : ∀ b ∈ nonce, b < 256) :
    decryptBody st env [(ciphertextKey, .str (b64encode ct)),
        (saltKey, .str (b64encode salt)), (nonceKey, .str (b64encode nonce))] =
      match aesgcmDecrypt (pbkdf2Sha256 (utf8Encode master) salt ITERATIONS KEY_LENGTH)
          nonce ct none with
      | some pt => Except.ok (interpretPlaintext pt)
      | none => Except.error .invalidTag := by
  simp only [decryptBody, pyDictGet_envelope_ct, pyDictGet_envelope_salt,
    pyDictGet_envelope_nonce, b64decodeField, b64decode_b64encode ct hct,
    b64decode_b64encode salt hsalt, b64decode_b64encode nonce hnonce,
    _derive_key_eq st env master salt hm hvm, ok_bind]
  cases aesgcmDecrypt (pbkdf2Sha256 (utf8Encode master) salt ITERATIONS KEY_LENGTH)
    nonce ct none <;> rfl

/-! ## Round-trip core -/
/-- Evaluation of `encrypt_data` on a payload that converts to bytes `pt`, under a
present, encodable master key, returns the base64 envelope. -/
theorem encrypt_data_eq (st : SecureStorage) (env : EnvMap) (master salt nonce : List Nat)
    (data : PyData) (pt : List Nat)
    (hm : getenv env st.key_env_var = some master) (hvm : ValidStr master)
    (hpt : encodePayload data = .ok pt) :
    st.encrypt_data env salt nonce data =
      .ok [(ciphertextKey, .str (b64encode (aesgcmEncrypt
              (pbkdf2Sha256 (utf8Encode master) salt ITERATIONS KEY_LENGTH) nonce pt none))),
           (saltKey, .str (b64encode salt)),
           (nonceKey, .str (b64encode nonce))] := by
  rw [encrypt_data, encryptBody_eq st env master salt nonce data pt hm hvm hpt]

/-- Evaluation of `decrypt_data` on a well-formed base64 envelope reduces to the AEAD
decryption: tag failure yields `NameError` (the unresolved
`DecryptionError` name), success yields the interpreted plaintext. -/
theorem decrypt_data_envelope (st : SecureStorage) (env : EnvMap)
    (master ct salt nonce : List Nat)
    (hm : getenv env st.key_env_var = some master) (hvm : ValidStr master)
    (hct : ∀ b ∈ ct, b < 256) (hsalt : ∀ b ∈ salt, b < 256)
    (hnonce : ∀ b ∈ nonce, b < 256) :
    st.decrypt_data env [(ciphertextKey, .str (b64encode ct)),
        (saltKey, .str (b64encode salt)), (nonceKey, .str (b64encode nonce))] =
      match aesgcmDecrypt (pbkdf2Sha256 (utf8Encode master) salt ITERATIONS KEY_LENGTH)
          nonce ct none with
      | none => Except.error (.nameError "DecryptionError")
      | some pt => Except.ok (interpretPlaintext pt) := by
  rw [decrypt_data, decryptBody_envelope st env master ct salt nonce hm hvm hct hsalt hnonce]
  cases aesgcmDecrypt (pbkdf2Sha256 (utf8Encode master) salt ITERATIONS KEY_LENGTH)
    nonce ct none <;> rfl

/-- Decrypting the result of encrypting under the same environment yields
the three-way interpretation of the payload bytes. -/
theorem roundtrip_core (st : SecureStorage) (env : EnvMap) (master salt nonce : List Nat)
    (data : PyData) (pt : List Nat)
    (hm : getenv env st.key_env_var = some master) (hvm : ValidStr master)
    (hsalt : ∀ b ∈ salt, b < 256) (hnonce : ∀ b ∈ nonce, b < 256)
    (hpt : encodePayload data = .ok pt) (hbytes : ∀ b ∈ pt, b < 256) :
    st.encrypt_data env salt nonce data >>= st.decrypt_data env =
      .ok (interpretPlaintext pt) := by
  rw [encrypt_data_eq st env master salt nonce data pt hm hvm hpt, ok_bind,
    decrypt_data_envelope st env master _ salt nonce hm hvm
      (aesgcmEncrypt_lt256 _ nonce pt none hbytes) hsalt hnonce,
    aesgcmDecrypt_aesgcmEncrypt]

/-- Interpretation of the UTF-8 encoding of a valid string. -/
theorem interpretPlaintext_utf8 (s : List Nat) (hvs : ValidStr s) :
    interpretPlaintext (utf8Encode s) =
      match loads s with
      | some j => .json j
      | none => .str s := by
  rw [interpretPlaintext, utf8Decode_utf8Encode s hvs]

/-! ## Claim theorems -/
/-- C1 (counterexample): the round-trip claim `Decrypt(Encrypt(x)) == x`
fails as stated.  With a present secret: the string `"123"` comes back as
the JSON integer `123` (not the string) and the string `"1.5"` as the
parsed float; the UTF-8-decodable byte payload `b"hi"` comes back as the
string `"hi"` (not bytes); and an array payload is not supported at all —
`encrypt_data` fails (with `NameError`, since the handler's
`EncryptionError` is never imported). -/
theorem C1_round_trip_counterexample :
    testStorage.encrypt_data testEnv testSalt testNonce (.str [49, 50, 51]) >>=
        testStorage.decrypt_data testEnv = .ok (.json (.int 123)) ∧
    PyValue.json (.int 123) ≠ PyValue.str [49, 50, 51] ∧
    testStorage.encrypt_data testEnv testSalt testNonce (.str [49, 46, 53]) >>=
        testStorage.decrypt_data testEnv = .ok (.json (.float false [1] [5] none)) ∧
    PyValue.json (.float false [1] [5] none) ≠ PyValue.str [49, 46, 53] ∧
    testStorage.encrypt_data testEnv testSalt testNonce (.bytes [104, 105]) >>=
        testStorage.decrypt_data testEnv = .ok (.str [104, 105]) ∧
    PyValue.str [104, 105] ≠ PyValue.bytes [104, 105] ∧
    testStorage.encrypt_data testEnv testSalt testNonce (.list [.int 1]) =
      .error (.nameError "EncryptionError") :=
  ⟨rfl, by simp, rfl, by simp, rfl, by simp, rfl⟩

/-- C1 (amended): under the same Secret, `Decrypt(Encrypt(x)) == x` holds
for string payloads that do not themselves parse as JSON (`loads s = none`
models `json.loads` raising, with the model grammar matching Python's —
float numerals such as `"1.5"` and the constants `NaN`/`Infinity` parse on
both sides), for byte payloads that are not valid UTF-8, and for
`NaN`-free mapping payloads on which `json.loads` inverts `json.dumps`
(in particular string-keyed mappings of primitives; a mapping containing
`NaN` can never satisfy `== x`, since `float("nan") != float("nan")`).
Otherwise the claim fails: a string payload that parses as JSON returns
the parsed value, a UTF-8-decodable byte payload returns a string, and
array payloads are rejected by `encrypt_data`. -/
theorem C1_round_trip (st : SecureStorage) (env : EnvMap) (salt nonce master : List Nat)
    (hm : getenv env st.key_env_var = some master) (hvm : ValidStr master)
    (hsalt : ∀ b ∈ salt, b < 256) (hnonce : ∀ b ∈ nonce, b < 256) :
    (∀ s, ValidStr s → loads s = none →
      st.encrypt_data env salt nonce (.str s) >>= st.decrypt_data env = .ok (.str s)) ∧
    (∀ b, (∀ x ∈ b, x < 256) → utf8Decode b = none →
      st.encrypt_data env salt nonce (.bytes b) >>= st.decrypt_data env = .ok (.bytes b)) ∧
    (∀ kvs, nanFree (.obj kvs) = true → loads (dumpsVal (.obj kvs)) = some (.obj kvs) →
      st.encrypt_data env salt nonce (.dict kvs) >>= st.decrypt_data env =
        .ok (.json (.obj kvs))) := by
  refine ⟨fun s hvs hls => ?_, fun b hb hdec => ?_, fun kvs hnan hkvs => ?_⟩
  · rw [roundtrip_core st env master salt nonce (.str s) (utf8Encode s) hm hvm hsalt hnonce
      (by rw [encodePayload, strEncodeUtf8, if_pos hvs])
      (utf8Encode_lt256 s hvs),
      interpretPlaintext_utf8 s hvs, hls]
  · rw [roundtrip_core st env master salt nonce (.bytes b) b hm hvm hsalt hnonce rfl hb,
      interpretPlaintext, hdec]
  · have hascii := dumpsVal_ascii (.obj kvs)
    have hvd : ValidStr (dumpsVal (.obj kvs)) := ascii_validStr _ hascii
    rw [roundtrip_core st env master salt nonce (.dict kvs) (utf8Encode (dumpsVal (.obj kvs)))
      hm hvm hsalt hnonce
      (by rw [encodePayload, strEncodeUtf8, if_pos hvd])
      (utf8Encode_lt256 _ hvd),
      interpretPlaintext_utf8 _ hvd, hkvs]

/-- C1 (witness): the amended round trip at concrete inputs — the string
`"hi"` (not JSON), the byte payload `[255, 254]` (not UTF-8), and the
mapping `{"a": 1}`. -/
theorem C1_round_trip_witness :
    getenv testEnv testStorage.key_env_var = some [107, 101, 121] ∧
    ValidStr [104, 105] ∧ loads [104, 105] = none ∧
    utf8Decode [255, 254] = none ∧
    nanFree (.obj [([97], .int 1)]) = true ∧
    loads (dumpsVal (.obj [([97], .int 1)])) = some (.obj [([97], .int 1)]) ∧
    testStorage.encrypt_data testEnv testSalt testNonce (.str [104, 105]) >>=
        testStorage.decrypt_data testEnv = .ok (.str [104, 105]) ∧
    testStorage.encrypt_data testEnv testSalt testNonce (.bytes [255, 254]) >>=
        testStorage.decrypt_data testEnv = .ok (.bytes [255, 254]) ∧
    testStorage.encrypt_data testEnv testSalt testNonce
        (.dict [([97], .int 1)]) >>= testStorage.decrypt_data testEnv =
      .ok (.json (.obj [([97], .int 1)])) := by
  have h := C1_round_trip testStorage testEnv testSalt testNonce [107, 101, 121]
    rfl (by decide) (by decide) (by decide)
  exact ⟨rfl, by decide, rfl, rfl, rfl, rfl,
    h.1 [104, 105] (by decide) rfl,
    h.2.1 [255, 254] (by decide) rfl,
    h.2.2 [([97], .int 1)] rfl rfl⟩

/-- C4 (counterexample): `exceptions.py` defines no `ConfigurationError`;
construction with the configuration value absent fails with the builtin
`EnvironmentError`, which is not part of the package's `StorageError`
hierarchy. -/
theorem C4_missing_config_counterexample :
    "ConfigurationError" ∉ storageExceptionNames ∧
    init [] defaultKeyEnvVar = .error (.environmentError
      ("Encryption key not found in environment variable: " ++ defaultKeyEnvVar)) ∧
    (PyErr.environmentError
      ("Encryption key not found in environment variable: " ++ defaultKeyEnvVar)).isStorageError
      = false :=
  ⟨by decide, rfl, rfl⟩

/-- C4 (amended): constructing the storage component when the named
configuration value is absent or empty fails with the builtin
`EnvironmentError` (not a package-defined `ConfigurationError`); the
constructor's result depends only on the looked-up value, and no
cryptographic operation is involved. -/
theorem C4_missing_config (env : EnvMap) (k : String)
    (h : getenv env k = none ∨ getenv env k = some []) :
    init env k = .error (.environmentError
      ("Encryption key not found in environment variable: " ++ k)) ∧
    (∀ env2 : EnvMap, getenv env2 k = getenv env k → init env2 k = init env k) := by
  constructor
  · rcases h with h | h <;> rw [init, h]
  · intro env2 h2
    rw [init, init, h2]

/-- C4 (witness): the amended statement at the empty environment and the
default variable name. -/
theorem C4_missing_config_witness :
    (getenv [] defaultKeyEnvVar = none ∨ getenv [] defaultKeyEnvVar = some []) ∧
    init [] defaultKeyEnvVar = .error (.environmentError
      ("Encryption key not found in environment variable: " ++ defaultKeyEnvVar)) :=
  ⟨Or.inl rfl, (C4_missing_config [] defaultKeyEnvVar (Or.inl rfl)).1⟩

/-- C5 (counterexample): the Secret is not held at construction: after
constructing against an environment holding `"key"`, removing the variable
makes a later `encrypt_data` call fail outright (the source re-reads
`os.environ` in `_derive_key` on every call), so results do not depend
only on the construction-time value. -/
theorem C5_construction_time_counterexample :
    init testEnv "K" = .ok testStorage ∧
    (testStorage.encrypt_data testEnv testSalt testNonce (.str [104])).isOk = true ∧
    testStorage.encrypt_data [] testSalt testNonce (.str [104]) =
      .error (.nameError "EncryptionError") :=
  ⟨rfl, rfl, rfl⟩

/-- C5 (amended): only the variable NAME is fixed at construction; the
secret value is re-read from the environment on every call, so the result
of every `encrypt_data`/`decrypt_data` call is determined by the value the
named variable has at call time (and changes when it changes). -/
theorem C5_secret_read_at_call_time (st : SecureStorage) (env1 env2 : EnvMap)
    (salt nonce : List Nat) (data : PyData) (ed : List (List Nat × Json))
    (h : getenv env1 st.key_env_var = getenv env2 st.key_env_var) :
    st.encrypt_data env1 salt nonce data = st.encrypt_data env2 salt nonce data ∧
    st.decrypt_data env1 ed = st.decrypt_data env2 ed := by
  constructor
  · simp only [encrypt_data, encryptBody, _derive_key, h]
  · simp only [decrypt_data, decryptBody, _derive_key, h]

/-- C5 (witness): the amended statement at concrete environments agreeing
on `"K"` but differing elsewhere. -/
theorem C5_secret_read_at_call_time_witness :
    getenv (("X", [120]) :: testEnv) testStorage.key_env_var =
      getenv testEnv testStorage.key_env_var ∧
    testStorage.encrypt_data (("X", [120]) :: testEnv) testSalt testNonce (.str [104]) =
      testStorage.encrypt_data testEnv testSalt testNonce (.str [104]) :=
  ⟨rfl, (C5_secret_read_at_call_time testStorage (("X", [120]) :: testEnv) testEnv
    testSalt testNonce (.str [104]) [] rfl).1⟩

/-- C10: the claim is right about the design (`DecryptionError` is a
`StorageError` in `exceptions.py`, and `decrypt_data`'s docstring promises
`DecryptionError`) but the code is wrong: `secure_storage.py` never imports
`DecryptionError`, so a failing `decrypt_data` — here on an empty envelope
dict — raises the builtin `NameError`, which no `except StorageError`
handler catches. -/
theorem C10_decrypt_error_class :
    decrypt_data testStorage testEnv [] = .error (.nameError "DecryptionError") ∧
    (PyErr.nameError "DecryptionError").isStorageError = false ∧
    (PyErr.decryptionError "Authentication failed").isStorageError = true :=
  ⟨rfl, rfl, rfl⟩

theorem b64encode_inj (a b : List Nat) (ha : ∀ x ∈ a, x < 256) (hb : ∀ x ∈ b, x < 256)
    (h : b64encode a = b64encode b) : a = b := by
  have := congrArg b64decode h
  rw [b64decode_b64encode a ha, b64decode_b64encode b hb] at this
  exact Option.some.inj this

/-- C2 (counterexample): flipping one bit of the ciphertext (so the AEAD
tag fails to verify) makes `decrypt_data` raise `NameError` — the handler's
`raise DecryptionError(...)` references a name the module never imports —
which is the very same error a generic decryption failure (here: an empty
envelope dict) produces, so there is no distinct `AuthenticationError`
class; indeed `exceptions.py` defines no such class. -/
theorem C2_tamper_counterexample :
    aesgcmDecrypt testKey testNonce tamperedCt none = none ∧
    decrypt_data testStorage testEnv
      [(ciphertextKey, .str (b64encode tamperedCt)), (saltKey, .str (b64encode testSalt)),
       (nonceKey, .str (b64encode testNonce))] = .error (.nameError "DecryptionError") ∧
    decrypt_data testStorage testEnv [(saltKey, .str [])] =
      .error (.nameError "DecryptionError") ∧
    "AuthenticationError" ∉ storageExceptionNames :=
  ⟨rfl, rfl, rfl, by decide⟩

/-- C2 (amended): for every envelope whose AEAD authentication tag fails to
verify, `decrypt_data` raises `NameError` (from the unresolved
`DecryptionError` name in the `except InvalidTag` handler) and never
returns a plaintext; the error class is the same one raised for generic
decryption failures, so tampering is not distinguishable by class. -/
theorem C2_tag_failure (st : SecureStorage) (env : EnvMap)
    (master ct salt nonce : List Nat)
    (hm : getenv env st.key_env_var = some master) (hvm : ValidStr master)
    (hct : ∀ b ∈ ct, b < 256) (hsalt : ∀ b ∈ salt, b < 256)
    (hnonce : ∀ b ∈ nonce, b < 256)
    (hfail : aesgcmDecrypt (pbkdf2Sha256 (utf8Encode master) salt ITERATIONS KEY_LENGTH)
      nonce ct none = none) :
    st.decrypt_data env [(ciphertextKey, .str (b64encode ct)),
        (saltKey, .str (b64encode salt)), (nonceKey, .str (b64encode nonce))] =
      .error (.nameError "DecryptionError") := by
  rw [decrypt_data_envelope st env master ct salt nonce hm hvm hct hsalt hnonce, hfail]

/-- C2 (witness): the amended statement at the concrete tampered
envelope. -/
theorem C2_tag_failure_witness :
    aesgcmDecrypt testKey testNonce tamperedCt none = none ∧
    decrypt_data testStorage testEnv
      [(ciphertextKey, .str (b64encode tamperedCt)), (saltKey, .str (b64encode testSalt)),
       (nonceKey, .str (b64encode testNonce))] = .error (.nameError "DecryptionError") :=
  ⟨rfl, C2_tag_failure testStorage testEnv [107, 101, 121] tamperedCt testSalt testNonce
    rfl (by decide) (by decide) (by decide) (by decide) rfl⟩

/-- C3 (counterexample): loading a file holding an envelope with corrupted
ciphertext fails with `NameError` (the handler's `StorageError` is never
imported), exactly the error a missing file produces — not a
`StorageError` wrapping a tamper-specific class, and not distinguishable
from the missing-file case by error class. -/
theorem C3_load_corrupted_counterexample :
    load_encrypted testStorage testEnv "p"
      [("p", dumpsVal (.obj [(ciphertextKey, .str (b64encode tamperedCt)),
        (saltKey, .str (b64encode testSalt)), (nonceKey, .str (b64encode testNonce))]))] =
      .error (.nameError "StorageError") ∧
    load_encrypted testStorage testEnv "missing" [] = .error (.nameError "StorageError") ∧
    (PyErr.nameError "StorageError").isStorageError = false :=
  ⟨rfl, rfl, rfl⟩

/-- C3 (amended): `load_encrypted` on a file whose JSON parses to an
envelope on which `decrypt_data` fails raises `NameError` (the unresolved
`StorageError` name), and `load_encrypted` on a missing path raises the
same `NameError`, so callers cannot distinguish tamper failures from
missing-file failures by error class. -/
theorem C3_load_failure_class (st : SecureStorage) (env : EnvMap) (path : String)
    (fs : FSState) :
    (∀ contents kvs e, readFile fs path = some contents →
      loads contents = some (.obj kvs) → st.decrypt_data env kvs = .error e →
      st.load_encrypted env path fs = .error (.nameError "StorageError")) ∧
    (readFile fs path = none →
      st.load_encrypted env path fs = .error (.nameError "StorageError")) := by
  constructor
  · intro contents kvs e hread hloads hdec
    rw [load_encrypted, loadBody, hread]
    simp only [ok_bind, hloads, hdec]
  · intro hread
    rw [load_encrypted, loadBody, hread]
    rfl

/-- C3 (witness): the amended statement at the concrete corrupted file and
at a missing path. -/
theorem C3_load_failure_class_witness :
    readFile [("p", dumpsVal (.obj [(ciphertextKey, .str (b64encode tamperedCt)),
        (saltKey, .str (b64encode testSalt)), (nonceKey, .str (b64encode testNonce))]))] "p" =
      some (dumpsVal (.obj [(ciphertextKey, .str (b64encode tamperedCt)),
        (saltKey, .str (b64encode testSalt)), (nonceKey, .str (b64encode testNonce))])) ∧
    load_encrypted testStorage testEnv "p"
      [("p", dumpsVal (.obj [(ciphertextKey, .str (b64encode tamperedCt)),
        (saltKey, .str (b64encode testSalt)), (nonceKey, .str (b64encode testNonce))]))] =
      .error (.nameError "StorageError") ∧
    load_encrypted testStorage testEnv "missing" [] = .error (.nameError "StorageError") :=
  ⟨rfl,
   (C3_load_failure_class testStorage testEnv "p" _).1
     (dumpsVal (.obj [(ciphertextKey, .str (b64encode tamperedCt)),
       (saltKey, .str (b64encode testSalt)), (nonceKey, .str (b64encode testNonce))]))
     [(ciphertextKey, .str (b64encode tamperedCt)), (saltKey, .str (b64encode testSalt)),
      (nonceKey, .str (b64encode testNonce))]
     (.nameError "DecryptionError") rfl (by rfl) (by rfl),
   (C3_load_failure_class testStorage testEnv "missing" []).2 rfl⟩

/-- C6: the three-way interpretation of decrypted plaintext is a total
function (it cannot raise) with deterministic fallback: UTF-8 JSON parses
to the structured value, valid UTF-8 that is not JSON yields the string,
anything else yields the raw bytes; and on any successful AEAD decryption
`decrypt_data` returns `.ok` of exactly this interpretation. -/
theorem C6_three_way_fallback :
    (∀ bs s j, utf8Decode bs = some s → loads s = some j →
      interpretPlaintext bs = .json j) ∧
    (∀ bs s, utf8Decode bs = some s → loads s = none →
      interpretPlaintext bs = .str s) ∧
    (∀ bs, utf8Decode bs = none → interpretPlaintext bs = .bytes bs) ∧
    (∀ (st : SecureStorage) (env : EnvMap) (master ct salt nonce pt : List Nat),
      getenv env st.key_env_var = some master → ValidStr master →
      (∀ b ∈ ct, b < 256) → (∀ b ∈ salt, b < 256) → (∀ b ∈ nonce, b < 256) →
      aesgcmDecrypt (pbkdf2Sha256 (utf8Encode master) salt ITERATIONS KEY_LENGTH)
          nonce ct none = some pt →
      st.decrypt_data env [(ciphertextKey, .str (b64encode ct)),
          (saltKey, .str (b64encode salt)), (nonceKey, .str (b64encode nonce))] =
        .ok (interpretPlaintext pt)) := by
  refine ⟨fun bs s j h1 h2 => ?_, fun bs s h1 h2 => ?_, fun bs h1 => ?_,
    fun st env master ct salt nonce pt hm hvm hct hsalt hnonce hdec => ?_⟩
  · simp only [interpretPlaintext, h1, h2]
  · simp only [interpretPlaintext, h1, h2]
  · simp only [interpretPlaintext, h1]
  · rw [decrypt_data_envelope st env master ct salt nonce hm hvm hct hsalt hnonce, hdec]

/-- C6 (witness): the fallback at concrete inputs — `"1"` (JSON), `"hi"`
(text), `[255]` (raw bytes) — and a concrete successful decryption. -/
theorem C6_three_way_fallback_witness :
    utf8Decode [49] = some [49] ∧ loads [49] = some (.int 1) ∧
    interpretPlaintext [49] = .json (.int 1) ∧
    utf8Decode [104, 105] = some [104, 105] ∧ loads [104, 105] = none ∧
    interpretPlaintext [104, 105] = .str [104, 105] ∧
    utf8Decode [255] = none ∧ interpretPlaintext [255] = .bytes [255] ∧
    aesgcmDecrypt testKey testNonce testCt none = some [104, 105] ∧
    decrypt_data testStorage testEnv [(ciphertextKey, .str (b64encode testCt)),
        (saltKey, .str (b64encode testSalt)), (nonceKey, .str (b64encode testNonce))] =
      .ok (interpretPlaintext [104, 105]) :=
  ⟨rfl, rfl, C6_three_way_fallback.1 [49] [49] (.int 1) rfl rfl,
   rfl, rfl, C6_three_way_fallback.2.1 [104, 105] [104, 105] rfl rfl,
   rfl, C6_three_way_fallback.2.2.1 [255] rfl,
   rfl, C6_three_way_fallback.2.2.2 testStorage testEnv [107, 101, 121] testCt testSalt
     testNonce [104, 105] rfl (by decide) (by decide) (by decide) (by decide) rfl⟩

/-- C7: two `encrypt_data` calls on the same payload whose `secrets`
draws differ — fresh salts and fresh nonces, collisions being negligible
for a cryptographically secure source, carried here as the hypotheses that
the draws and the resulting AEAD outputs differ — produce envelopes with
different `salt`, different `nonce` and different `ciphertext` fields. -/
theorem C7_fresh_randomness (st : SecureStorage) (env : EnvMap)
    (master s1 n1 s2 n2 pt : List Nat)
    (hm : getenv env st.key_env_var = some master) (hvm : ValidStr master)
    (hs1 : ∀ b ∈ s1, b < 256) (hs2 : ∀ b ∈ s2, b < 256)
    (hn1 : ∀ b ∈ n1, b < 256) (hn2 : ∀ b ∈ n2, b < 256)
    (hpt : ∀ b ∈ pt, b < 256)
    (hss : s1 ≠ s2) (hnn : n1 ≠ n2)
    (hct : aesgcmEncrypt (pbkdf2Sha256 (utf8Encode master) s1 ITERATIONS KEY_LENGTH)
        n1 pt none ≠
      aesgcmEncrypt (pbkdf2Sha256 (utf8Encode master) s2 ITERATIONS KEY_LENGTH)
        n2 pt none) :
    ∃ E1 E2, st.encrypt_data env s1 n1 (.bytes pt) = .ok E1 ∧
      st.encrypt_data env s2 n2 (.bytes pt) = .ok E2 ∧
      pyDictGet E1 saltKey ≠ pyDictGet E2 saltKey ∧
      pyDictGet E1 nonceKey ≠ pyDictGet E2 nonceKey ∧
      pyDictGet E1 ciphertextKey ≠ pyDictGet E2 ciphertextKey := by
  refine ⟨_, _, encrypt_data_eq st env master s1 n1 (.bytes pt) pt hm hvm rfl,
    encrypt_data_eq st env master s2 n2 (.bytes pt) pt hm hvm rfl, ?_, ?_, ?_⟩
  · simp only [pyDictGet_envelope_salt]
    intro h
    exact hss (b64encode_inj s1 s2 hs1 hs2
      (Json.str.inj (Option.some.inj h)))
  · simp only [pyDictGet_envelope_nonce]
    intro h
    exact hnn (b64encode_inj n1 n2 hn1 hn2
      (Json.str.inj (Option.some.inj h)))
  · simp only [pyDictGet_envelope_ct]
    intro h
    exact hct (b64encode_inj _ _
      (aesgcmEncrypt_lt256 _ n1 pt none hpt)
      (aesgcmEncrypt_lt256 _ n2 pt none hpt)
      (Json.str.inj (Option.some.inj h)))

/-- C7 (witness): the fresh-randomness theorem at concrete distinct draws. -/
theorem C7_fresh_randomness_witness :
    testSalt ≠ [2, 2, 3, 4, 5, 6, 7, 8, 9, 10, 11, 12, 13, 14, 15, 16] ∧
    testNonce ≠ [22, 22, 23, 24, 25, 26, 27, 28, 29, 30, 31, 32] ∧
    (∃ E1 E2, testStorage.encrypt_data testEnv testSalt testNonce (.bytes [104]) = .ok E1 ∧
      testStorage.encrypt_data testEnv [2, 2, 3, 4, 5, 6, 7, 8, 9, 10, 11, 12, 13, 14, 15, 16]
        [22, 22, 23, 24, 25, 26, 27, 28, 29, 30, 31, 32] (.bytes [104]) = .ok E2 ∧
      pyDictGet E1 saltKey ≠ pyDictGet E2 saltKey ∧
      pyDictGet E1 nonceKey ≠ pyDictGet E2 nonceKey ∧
      pyDictGet E1 ciphertextKey ≠ pyDictGet E2 ciphertextKey) :=
  ⟨by decide, by decide,
   C7_fresh_randomness testStorage testEnv [107, 101, 121] testSalt testNonce
     [2, 2, 3, 4, 5, 6, 7, 8, 9, 10, 11, 12, 13, 14, 15, 16]
     [22, 22, 23, 24, 25, 26, 27, 28, 29, 30, 31, 32] [104]
     rfl (by decide) (by decide) (by decide) (by decide) (by decide) (by decide)
     (by decide) (by decide) (by decide)⟩

/-- C8: every envelope produced by `encrypt_data` from the class's 16-byte
salt and 12-byte nonce draws has fields base64-decoding back to exactly
those 16 and 12 raw bytes; the derived key is `KEY_LENGTH = 32` bytes from
the KDF run with `ITERATIONS = 100000`; and the ciphertext is the AEAD
output with empty associated data (`none` is passed) whose length is the
payload-byte length plus the 16-byte appended tag. -/
theorem C8_envelope_format (st : SecureStorage) (env : EnvMap)
    (master salt nonce : List Nat) (data : PyData) (pt : List Nat)
    (hm : getenv env st.key_env_var = some master) (hvm : ValidStr master)
    (hsl : salt.length = SALT_LENGTH) (hnl : nonce.length = NONCE_LENGTH)
    (hsalt : ∀ b ∈ salt, b < 256) (hnonce : ∀ b ∈ nonce, b < 256)
    (hpt : encodePayload data = .ok pt) (hbytes : ∀ b ∈ pt, b < 256) :
    ∃ cf sf nf,
      st.encrypt_data env salt nonce data =
        .ok [(ciphertextKey, .str cf), (saltKey, .str sf), (nonceKey, .str nf)] ∧
      b64decode sf = some salt ∧ salt.length = 16 ∧
      b64decode nf = some nonce ∧ nonce.length = 12 ∧
      b64decode cf = some (aesgcmEncrypt
        (pbkdf2Sha256 (utf8Encode master) salt ITERATIONS KEY_LENGTH) nonce pt none) ∧
      (aesgcmEncrypt (pbkdf2Sha256 (utf8Encode master) salt ITERATIONS KEY_LENGTH)
        nonce pt none).length = pt.length + 16 ∧
      (pbkdf2Sha256 (utf8Encode master) salt ITERATIONS KEY_LENGTH).length = KEY_LENGTH ∧
      KEY_LENGTH = 32 ∧ ITERATIONS = 100000 ∧ SALT_LENGTH = 16 ∧ NONCE_LENGTH = 12 :=
  ⟨_, _, _, encrypt_data_eq st env master salt nonce data pt hm hvm hpt,
   b64decode_b64encode salt hsalt, by rw [hsl]; rfl,
   b64decode_b64encode nonce hnonce, by rw [hnl]; rfl,
   b64decode_b64encode _ (aesgcmEncrypt_lt256 _ nonce pt none hbytes),
   aesgcmEncrypt_length _ nonce pt none,
   pbkdf2Sha256_length _ salt ITERATIONS KEY_LENGTH,
   rfl, rfl, rfl, rfl⟩

/-- C8 (witness): the format theorem at the concrete fixtures with the
byte payload `b"hi"`. -/
theorem C8_envelope_format_witness :
    testSalt.length = SALT_LENGTH ∧ testNonce.length = NONCE_LENGTH ∧
    encodePayload (.bytes [104, 105]) = .ok [104, 105] ∧
    (∃ cf sf nf,
      testStorage.encrypt_data testEnv testSalt testNonce (.bytes [104, 105]) =
        .ok [(ciphertextKey, .str cf), (saltKey, .str sf), (nonceKey, .str nf)] ∧
      b64decode sf = some testSalt ∧ testSalt.length = 16 ∧
      b64decode nf = some testNonce ∧ testNonce.length = 12 ∧
      b64decode cf = some (aesgcmEncrypt (pbkdf2Sha256 (utf8Encode [107, 101, 121])
        testSalt ITERATIONS KEY_LENGTH) testNonce [104, 105] none) ∧
      (aesgcmEncrypt (pbkdf2Sha256 (utf8Encode [107, 101, 121]) testSalt ITERATIONS
        KEY_LENGTH) testNonce [104, 105] none).length = [104, 105].length + 16 ∧
      (pbkdf2Sha256 (utf8Encode [107, 101, 121]) testSalt ITERATIONS KEY_LENGTH).length =
        KEY_LENGTH ∧
      KEY_LENGTH = 32 ∧ ITERATIONS = 100000 ∧ SALT_LENGTH = 16 ∧ NONCE_LENGTH = 12) :=
  ⟨rfl, rfl, rfl,
   C8_envelope_format testStorage testEnv [107, 101, 121] testSalt testNonce
     (.bytes [104, 105]) [104, 105] rfl (by decide) rfl rfl (by decide) (by decide)
     rfl (by decide)⟩

theorem b64IsAlpha_nice (c : Nat) (h : b64IsAlpha c = true) : NiceChar c := by
  unfold b64IsAlpha b64Index at h
  split_ifs at h with h1 h2 h3 h4 h5
  · exact ⟨by omega, by omega, by omega, by omega⟩
  · exact ⟨by omega, by omega, by omega, by omega⟩
  · exact ⟨by omega, by omega, by omega, by omega⟩
  · exact ⟨by omega, by omega, by omega, by omega⟩
  · exact ⟨by omega, by omega, by omega, by omega⟩
  · simp at h

/-- Base64 text needs no JSON escaping. -/
theorem b64encode_nice (bs : List Nat) (h : ∀ b ∈ bs, b < 256) :
    NiceStr (b64encode bs) := by
  intro c hc
  have hch := b64encode_chars bs h c hc
  have hd : b64IsAlpha c = true ∨ c = 61 := by simpa using hch
  rcases hd with hch2 | rfl
  · exact b64IsAlpha_nice c hch2
  · exact ⟨by omega, by omega, by omega, by omega⟩

/-- Evaluation of `store_encrypted`: it writes the `json.dump` of the envelope. -/
theorem store_encrypted_eq (st : SecureStorage) (env : EnvMap) (salt nonce : List Nat)
    (data : PyData) (path : String) (fs : FSState) (E : List (List Nat × Json))
    (hE : st.encrypt_data env salt nonce data = .ok E) :
    st.store_encrypted env salt nonce data path fs =
      .ok (writeFile fs path (dumpsVal (.obj E))) := by
  rw [store_encrypted, hE]

/-- Evaluation of `load_encrypted`: it returns the decryption of the parsed file contents. -/
theorem load_encrypted_ok (st : SecureStorage) (env : EnvMap) (path : String)
    (fs : FSState) (contents : List Nat) (kvs : List (List Nat × Json)) (v : PyValue)
    (hread : readFile fs path = some contents)
    (hloads : loads contents = some (.obj kvs))
    (hdec : st.decrypt_data env kvs = .ok v) :
    st.load_encrypted env path fs = .ok v := by
  rw [load_encrypted, loadBody, hread]
  simp only [ok_bind, hloads, hdec]

/-- A fresh write is found again at the same path. -/
theorem readFile_writeFile (fs : FSState) (path : String) (contents : List Nat) :
    readFile (writeFile fs path contents) path = some contents := by
  simp [readFile, writeFile, List.find?]

/-- Storing then loading recovers the interpretation of the payload bytes:
the envelope is serialized with `json.dump`, parsed back by `json.load`,
and decrypted under the same environment. -/
theorem store_load_core (st : SecureStorage) (env : EnvMap)
    (master salt nonce : List Nat) (data : PyData) (pt : List Nat)
    (path : String) (fs : FSState)
    (hm : getenv env st.key_env_var = some master) (hvm : ValidStr master)
    (hsalt : ∀ b ∈ salt, b < 256) (hnonce : ∀ b ∈ nonce, b < 256)
    (hpt : encodePayload data = .ok pt) (hbytes : ∀ b ∈ pt, b < 256) :
    st.store_encrypted env salt nonce data path fs >>= st.load_encrypted env path =
      .ok (interpretPlaintext pt) := by
  have hct : ∀ b ∈ aesgcmEncrypt (pbkdf2Sha256 (utf8Encode master) salt ITERATIONS
      KEY_LENGTH) nonce pt none, b < 256 := aesgcmEncrypt_lt256 _ nonce pt none hbytes
  have hnice : ∀ p ∈ [(ciphertextKey, b64encode (aesgcmEncrypt
      (pbkdf2Sha256 (utf8Encode master) salt ITERATIONS KEY_LENGTH) nonce pt none)),
      (saltKey, b64encode salt), (nonceKey, b64encode nonce)],
      NiceStr p.1 ∧ NiceStr p.2 := by
    intro p hp
    rcases List.mem_cons.mp hp with rfl | hp
    · exact ⟨show NiceStr ciphertextKey from by decide, b64encode_nice _ hct⟩
    rcases List.mem_cons.mp hp with rfl | hp
    · exact ⟨show NiceStr saltKey from by decide, b64encode_nice salt hsalt⟩
    rcases List.mem_cons.mp hp with rfl | hp
    · exact ⟨show NiceStr nonceKey from by decide, b64encode_nice nonce hnonce⟩
    · simp at hp
  have hloads := loads_dumps_strObj
    [(ciphertextKey, b64encode (aesgcmEncrypt
        (pbkdf2Sha256 (utf8Encode master) salt ITERATIONS KEY_LENGTH) nonce pt none)),
     (saltKey, b64encode salt), (nonceKey, b64encode nonce)] hnice
  simp only [List.map_cons, List.map_nil] at hloads
  rw [store_encrypted_eq st env salt nonce data path fs _
      (encrypt_data_eq st env master salt nonce data pt hm hvm hpt), ok_bind]
  exact load_encrypted_ok st env path _ _ _ _
    (readFile_writeFile fs path _) hloads
    (by rw [decrypt_data_envelope st env master _ salt nonce hm hvm hct hsalt hnonce,
      aesgcmDecrypt_aesgcmEncrypt])

/-- C9 (counterexample): the storage round trip `Load(Store(x, path)) == x`
fails as stated: storing the string `"123"` loads back as the integer
`123`, and `Load` on a nonexistent path does not raise `StorageError` but
`NameError` — the handler references `StorageError` without importing it. -/
theorem C9_storage_round_trip_counterexample :
    store_encrypted testStorage testEnv testSalt testNonce (.str [49, 50, 51]) "p" [] >>=
        load_encrypted testStorage testEnv "p" = .ok (.json (.int 123)) ∧
    PyValue.json (.int 123) ≠ PyValue.str [49, 50, 51] ∧
    load_encrypted testStorage testEnv "q" [] = .error (.nameError "StorageError") ∧
    (PyErr.nameError "StorageError").clsName ≠ "StorageError" :=
  ⟨rfl, by simp, rfl, by decide⟩

/-- C9 (amended): `Load(Store(x, path)) == x` under the same Secret for
string payloads that do not parse as JSON (with the model grammar matching
Python's, floats and `NaN`/`Infinity` included), byte payloads that are
not valid UTF-8, and `NaN`-free mapping payloads on which `json.loads`
inverts `json.dumps` (a `NaN`-containing mapping never satisfies `== x`);
`Load` on a nonexistent path fails with `NameError` (the handler's
`StorageError` name is never imported). -/
theorem C9_storage_round_trip (st : SecureStorage) (env : EnvMap)
    (master salt nonce : List Nat) (path : String) (fs : FSState)
    (hm : getenv env st.key_env_var = some master) (hvm : ValidStr master)
    (hsalt : ∀ b ∈ salt, b < 256) (hnonce : ∀ b ∈ nonce, b < 256) :
    (∀ s, ValidStr s → loads s = none →
      st.store_encrypted env salt nonce (.str s) path fs >>= st.load_encrypted env path =
        .ok (.str s)) ∧
    (∀ b, (∀ x ∈ b, x < 256) → utf8Decode b = none →
      st.store_encrypted env salt nonce (.bytes b) path fs >>= st.load_encrypted env path =
        .ok (.bytes b)) ∧
    (∀ kvs, nanFree (.obj kvs) = true → loads (dumpsVal (.obj kvs)) = some (.obj kvs) →
      st.store_encrypted env salt nonce (.dict kvs) path fs >>= st.load_encrypted env path =
        .ok (.json (.obj kvs))) ∧
    (readFile fs path = none →
      st.load_encrypted env path fs = .error (.nameError "StorageError")) := by
  refine ⟨fun s hvs hls => ?_, fun b hb hdec => ?_, fun kvs hnan hkvs => ?_, fun hread => ?_⟩
  · rw [store_load_core st env master salt nonce (.str s) (utf8Encode s) path fs hm hvm
      hsalt hnonce (by rw [encodePayload, strEncodeUtf8, if_pos hvs]) (utf8Encode_lt256 s hvs),
      interpretPlaintext_utf8 s hvs, hls]
  · rw [store_load_core st env master salt nonce (.bytes b) b path fs hm hvm
      hsalt hnonce rfl hb, interpretPlaintext, hdec]
  · have hvd : ValidStr (dumpsVal (.obj kvs)) := ascii_validStr _ (dumpsVal_ascii (.obj kvs))
    rw [store_load_core st env master salt nonce (.dict kvs)
      (utf8Encode (dumpsVal (.obj kvs))) path fs hm hvm hsalt hnonce
      (by rw [encodePayload, strEncodeUtf8, if_pos hvd]) (utf8Encode_lt256 _ hvd),
      interpretPlaintext_utf8 _ hvd, hkvs]
  · rw [load_encrypted, loadBody, hread]
    rfl

/-- C9 (witness): the amended storage round trip at concrete inputs, and a
missing path. -/
theorem C9_storage_round_trip_witness :
    ValidStr [104, 105] ∧ loads [104, 105] = none ∧ utf8Decode [255, 254] = none ∧
    nanFree (.obj [([97], .int 1)]) = true ∧
    loads (dumpsVal (.obj [([97], .int 1)])) = some (.obj [([97], .int 1)]) ∧
    store_encrypted testStorage testEnv testSalt testNonce (.str [104, 105]) "p" [] >>=
        load_encrypted testStorage testEnv "p" = .ok (.str [104, 105]) ∧
    store_encrypted testStorage testEnv testSalt testNonce (.bytes [255, 254]) "p" [] >>=
        load_encrypted testStorage testEnv "p" = .ok (.bytes [255, 254]) ∧
    store_encrypted testStorage testEnv testSalt testNonce (.dict [([97], .int 1)]) "p" [] >>=
        load_encrypted testStorage testEnv "p" = .ok (.json (.obj [([97], .int 1)])) ∧
    load_encrypted testStorage testEnv "q" [] = .error (.nameError "StorageError") := by
  have h := C9_storage_round_trip testStorage testEnv [107, 101, 121] testSalt testNonce
    "p" [] rfl (by decide) (by decide) (by decide)
  exact ⟨by decide, rfl, rfl, rfl, rfl,
    h.1 [104, 105] (by decide) rfl,
    h.2.1 [255, 254] (by decide) rfl,
    h.2.2.1 [([97], .int 1)] rfl rfl,
    (C9_storage_round_trip testStorage testEnv [107, 101, 121] testSalt testNonce
      "q" [] rfl (by decide) (by decide) (by decide)).2.2.2 rfl⟩

end SecureStorage

end FinSight
